import Mathlib

/-!
# Exception handling core of the Hawkbeans-style JVM (`src/jvm/exceptions.c`)

A shallow embedding of `hb_excp_str_to_type`, `check_catchtype_and_class`,
`find_exception_table`, `hb_create_obj`, `hb_throw_and_create_excp`,
`get_excp_str` and `hb_throw_exception`, followed by theorems about them.

Conventions of the embedding.

* A C pointer is an `Option`: `none` is `NULL`.  A class pointer
  (`java_class_t *`) and a reference pointer (`obj_ref_t *`) are `Option Nat`,
  the number being the address.
* A C function that can dereference `NULL` returns a `Res`: `Res.fault` is the
  undefined behaviour of such a dereference, `Res.nofuel` says that the bound
  the model puts on a loop was reached before the loop ended.
* `u1`/`u2` values are natural numbers; the code only compares and copies them.
* The functions of other source units that `exceptions.c` calls
  (`hb_get_class_name`, `hb_get_super_class`, `hb_get_const_str`,
  `hb_get_or_load_class`, `hb_resolve_class`, `gc_obj_alloc`, `hb_invoke_ctor`,
  `malloc`), the class fields it reads and what lies after the table
  `excp_strs` are parameters, gathered in `Env`.
-/

namespace Hawkbeans

/-! ## Results of running C code -/

/-- Result of running a piece of C code that may dereference `NULL` or loop. -/
inductive Res (α : Type) where
  | ok (a : α)
  | fault
  | nofuel
  deriving DecidableEq, Repr

/-- Sequencing of two pieces of C code: the second runs when the first returned. -/
def Res.bind {α β : Type} (r : Res α) (k : α → Res β) : Res β :=
  match r with
  | .ok a => k a
  | .fault => .fault
  | .nofuel => .nofuel

instance : Monad Res where
  pure := Res.ok
  bind := Res.bind

/-- Dereference of a pointer: undefined behaviour on `NULL`. -/
def deref {α : Type} : Option α → Res α
  | some a => .ok a
  | none => .fault

/-! ## Data model (declarations of `class.h`, `stack.h`, `thread.h`, `types.h`) -/

/-- One entry of a method's exception table (`excp_table_t`), four `u2` fields. -/
structure excp_table_t where
  start_pc : Nat
  end_pc : Nat
  handler_pc : Nat
  catch_type : Nat
  deriving DecidableEq, Repr

/-- Constant-pool entry read through `CONSTANT_Class_info_t *`: only `name_idx` is used. -/
structure CONSTANT_Class_info_t where
  name_idx : Nat
  deriving DecidableEq, Repr

/-- A `var_t` slot (a C union), tagged with the member it was written through.
`exceptions.c` uses the members `obj` (an `obj_ref_t *`) and `char_val`. -/
inductive var_t where
  | obj (r : Option Nat)
  | char_val (c : Nat)
  deriving DecidableEq, Repr

/-- A heap object (`native_obj_t`): its class pointer `class`, its slots
`fields[i]` and, for an array, `flags.array.length`. -/
structure native_obj_t where
  cls : Nat
  fields : Nat → var_t
  array_length : Nat

/-- The heap seen through reference cells: for the `obj_ref_t` at address `r`,
`heap r` is the object `r->heap_ptr` points to, `none` when `heap_ptr` is `NULL`. -/
abbrev Heap := Nat → Option native_obj_t

/-- A stack frame (`stack_frame_t`): `pc`, the class pointer `cls`, the exception
table `minfo->code_attr->excp_table` (whose length is `excp_table_len`), and the
operand stack `op_stack` with its slots `oprs[i]` and cursor `sp`. -/
structure stack_frame_t where
  pc : Nat
  cls : Nat
  excp_table : List excp_table_t
  oprs : Nat → var_t
  sp : Nat

/-- A thread (`jthread_t`): its name and its frames, linked from the top;
`cur_frame` is the head of `frames` and is `NULL` when the list is empty. -/
structure jthread_t where
  name : String
  frames : List stack_frame_t

/-- The pointer `t->cur_frame`. -/
def jthread_t.cur_frame (t : jthread_t) : Option stack_frame_t :=
  t.frames.head?

/-- The mutable state `exceptions.c` works on: the global `cur_thread` and the heap. -/
structure State where
  cur_thread : jthread_t
  heap : Heap

/-- The collaborators of `exceptions.c` and the class fields it reads.
`const_pool c i` is `c->const_pool[i]` (`none`: a `NULL` slot), `class_name c` is
`c->name`, `class_this c` is `c->this`.  `malloc n` tells whether a buffer of `n`
bytes is obtained.  `excp_strs_beyond i`, for `i` of 16 or more, is what the
unchecked read `excp_strs[i]` finds after the 16 entries of the table: a string,
or a fault when nothing readable as a string is there. -/
structure Env where
  const_pool : Nat → Nat → Option CONSTANT_Class_info_t
  class_name : Nat → String
  class_this : Nat → Nat
  hb_get_const_str : Nat → Nat → Res String
  hb_get_class_name : Option Nat → Res String
  hb_get_super_class : Nat → Option Nat
  hb_get_or_load_class : String → Option Nat
  hb_resolve_class : Nat → Nat → Option Nat
  gc_obj_alloc : Heap → Nat → Option Nat × Heap
  hb_invoke_ctor : State → Option Nat → Res State
  malloc : Nat → Bool
  excp_strs_beyond : Nat → Res String

/-- Modelled from the spec: `hb_pop_frame` of the frame-stack collaborator, the
frame-pop primitive of §6: the current frame is discarded and the frame below
it becomes the current one. -/
def hb_pop_frame (t : jthread_t) : jthread_t :=
  { t with frames := t.frames.tail }

/-! ## `check_catchtype_and_class` (lines 167-195) -/

/-- The loop `while(super)` of lines 186-192, entered with the current values of
`super` and `cname`; `fuel` bounds the number of times the loop body is run.
Line 190 asks for the superclass of `cls`, the thrown class, at every iteration. -/
def super_loop (E : Env) (cls : Nat) (tname : String) :
    Nat → Option Nat → String → Res Nat
  | _, none, _ => .ok 0
  | 0, some _, _ => .nofuel
  | fuel + 1, some _, cname =>
    if cname = tname then .ok 1
    else
      let super := E.hb_get_super_class cls
      match E.hb_get_class_name super with
      | .ok cname1 => super_loop E cls tname fuel super cname1
      | .fault => .fault
      | .nofuel => .nofuel

/-- `check_catchtype_and_class(t, cls, curpc)`, run with `cur_thread = th`. -/
def check_catchtype_and_class (E : Env) (fuel : Nat) (th : jthread_t)
    (t : excp_table_t) (cls : Nat) (curpc : Nat) : Res Nat :=
  if t.start_pc ≤ curpc ∧ curpc < t.end_pc then do
    let f ← deref th.cur_frame
    let c ← deref (E.const_pool f.cls t.catch_type)
    let tname ← E.hb_get_const_str c.name_idx f.cls
    let cname ← E.hb_get_class_name (some cls)
    if t.catch_type = 0 ∨ cname = tname then
      .ok 1
    else do
      let super := E.hb_get_super_class cls
      let cname1 ← E.hb_get_class_name super
      super_loop E cls tname fuel super cname1
  else
    .ok 0

/-! ## `find_exception_table` (lines 203-230) -/

/-- The loop `for (i = 0; i < excplen; i++)` of lines 220-225 with `n` iterations
left.  The pointer `t` is not advanced: every iteration tests the same entry.
The result tells whether an iteration took the `return 1` branch. -/
def for_entries (E : Env) (fuel : Nat) (th : jthread_t) (t : excp_table_t)
    (cls : Nat) (curpc : Nat) : Nat → Res Bool
  | 0 => .ok false
  | n + 1 =>
    match check_catchtype_and_class E fuel th t cls curpc with
    | .ok r => if r ≠ 0 then .ok true else for_entries E fuel th t cls curpc n
    | .fault => .fault
    | .nofuel => .nofuel

/-- The loop `while(cur_thread->cur_frame)` of lines 213-228; `k` bounds the
number of times the loop test is run.  The result is the returned `int` and the
thread as the function leaves it. -/
def find_loop (E : Env) (fuel : Nat) (cls : Nat) (curpc : Nat) :
    Nat → jthread_t → Res (Nat × jthread_t)
  | 0, _ => .nofuel
  | k + 1, th =>
    match th.frames with
    | [] => .ok (0, th)
    | f :: rest =>
      let excplen := f.excp_table.length
      match f.excp_table with
      | [] => find_loop E fuel cls curpc k (hb_pop_frame th)
      | t :: _ =>
        match for_entries E fuel th t cls curpc excplen with
        | .ok true => .ok (1, { th with frames := { f with pc := t.handler_pc } :: rest })
        | .ok false => find_loop E fuel cls curpc k (hb_pop_frame th)
        | .fault => .fault
        | .nofuel => .nofuel

/-- `find_exception_table(cls)` run with `cur_thread = th`.  Line 208 reads
`cur_thread->cur_frame->pc` once, before the loop.  Every pass of the loop
returns or pops a frame, so one test per frame and a last one are enough. -/
def find_exception_table (E : Env) (fuel : Nat) (th : jthread_t) (cls : Nat) :
    Res (Nat × jthread_t) := do
  let f ← deref th.cur_frame
  let curpc := f.pc
  find_loop E fuel cls curpc (th.frames.length + 1) th

/-! ## The registry `excp_strs` (lines 38-56) -/

/-- The table `excp_strs`, indexed by the internal exception identifier. -/
def excp_strs : List String :=
  [ "java/lang/NullPointerException",
    "java/lang/IndexOutOfBoundsException",
    "java/lang/ArrayIndexOutOfBoundsException",
    "IncompatibleClassChangeError",
    "java/lang/NegativeArraySizeException",
    "java/lang/OutOfMemoryError",
    "java/lang/ClassNotFoundException",
    "java/lang/ArithmeticException",
    "java/lang/NoSuchFieldError",
    "java/lang/NoSuchMethodError",
    "java/lang/RuntimeException",
    "java/io/IOException",
    "FileNotFoundException",
    "java/lang/InterruptedException",
    "java/lang/NumberFormatException",
    "java/lang/StringIndexOutOfBoundsException" ]

/-- Modelled from the spec: the identifier `EXCP_NULL_PTR` of `exceptions.h`, the
fault code of a null dereference; it indexes `excp_strs`, whose entry 0 is the
class of the null-pointer exception. -/
def EXCP_NULL_PTR : Nat := 0

/-- The status `EXIT_FAILURE` of `stdlib.h`. -/
def EXIT_FAILURE : Nat := 1

/-! ## `hb_excp_str_to_type` (lines 58-66) -/

/-- The C library function `strstr(haystack, needle)` on the characters of the two
strings: the part of `haystack` that starts at the first occurrence of `needle`,
`none` (`NULL`) when there is none.  An empty `needle` is found at once. -/
def strstr : List Char → List Char → Option (List Char)
  | [], needle => if needle.isPrefixOf [] then some [] else none
  | c :: hay, needle =>
    if needle.isPrefixOf (c :: hay) then some (c :: hay) else strstr hay needle

/-- The loop of lines 61-64 from index `i` on, `rest` being the entries
`excp_strs[i]`, `excp_strs[i+1]`, ...; line 65 returns -1 when the table is
exhausted. -/
def excp_str_loop (str : String) : List String → Nat → Int
  | [], _ => -1
  | e :: rest, i =>
    if (strstr e.data str.data).isSome then (i : Int)
    else excp_str_loop str rest (i + 1)

/-- `hb_excp_str_to_type(str)`. -/
def hb_excp_str_to_type (str : String) : Int :=
  excp_str_loop str excp_strs 0

/-! ## `hb_create_obj` (lines 74-92) -/

/-- `hb_create_obj(class_nm)` run on the heap `heap`: the returned reference
(`none` for `NULL`) and the heap afterwards.  Line 80 reads `cls->this` before
the test of line 82. -/
def hb_create_obj (E : Env) (heap : Heap) (class_nm : String) : Res (Option Nat × Heap) := do
  let cls ← deref (E.hb_get_or_load_class class_nm)
  match E.hb_resolve_class (E.class_this cls) cls with
  | none => .ok (none, heap)
  | some cls1 =>
    match E.gc_obj_alloc heap cls1 with
    | (none, heap1) => .ok (none, heap1)
    | (some ref, heap1) => .ok (some ref, heap1)

/-! ## `get_excp_str` (lines 122-157) -/

/-- Read of the member `obj` of a slot.  A slot written through another member
has no value as a reference in this model. -/
def var_t.get_obj : var_t → Res (Option Nat)
  | .obj r => .ok r
  | .char_val _ => .fault

/-- Read of the member `char_val` of a slot. -/
def var_t.get_char_val : var_t → Res Nat
  | .char_val c => .ok c
  | .obj _ => .fault

/-- The loop of lines 150-152 up to index `i`: the bytes `ret[0]`, ..., `ret[i-1]`,
each the character value stored into a `char`. -/
def copy_chars (arr_obj : native_obj_t) : Nat → Res (List Nat)
  | 0 => .ok []
  | i + 1 => do
    let done ← copy_chars arr_obj i
    let c ← (arr_obj.fields i).get_char_val
    .ok (done ++ [c % 256])

/-- `get_excp_str(eref)`: `none` is the returned `NULL`, `some bytes` the bytes of
the returned buffer, the terminating 0 included. -/
def get_excp_str (E : Env) (heap : Heap) (eref : Option Nat) : Res (Option (List Nat)) := do
  let r ← deref eref
  let obj ← deref (heap r)
  let str_ref ← (obj.fields 0).get_obj
  match str_ref with
  | none => .ok none
  | some sr =>
    let str_obj ← deref (heap sr)
    let arr_ref ← (str_obj.fields 0).get_obj
    match arr_ref with
    | none => .ok none
    | some ar =>
      let arr_obj ← deref (heap ar)
      if E.malloc (arr_obj.array_length + 1) then do
        let bytes ← copy_chars arr_obj arr_obj.array_length
        .ok (some (bytes ++ [0]))
      else
        .fault

/-! ## The dispatcher: `hb_throw_and_create_excp` (105-112), `hb_throw_exception` (242-264) -/

/-- The arguments `HB_INFO` is given on line 262. -/
structure Report where
  thread_name : String
  class_name : String
  message : Option (List Nat)

/-- How a call of one of the two entry points ends: it returns to the
interpreter, it ends the process through `exit`, it dereferences `NULL`, or the
bound of the model is reached. -/
inductive Outcome where
  | returned (s : State)
  | exited (status : Nat) (report : Report)
  | fault
  | nofuel

/-- The read `excp_strs[type]` of line 108.  The source compares `type` with
nothing: below 16 the read yields the entry of the table, from 16 on it yields
what lies after the table. -/
def excp_strs_read (E : Env) (type : Nat) : Res String :=
  match excp_strs[type]? with
  | some class_nm => .ok class_nm
  | none => E.excp_strs_beyond type

mutual

/-- `hb_throw_and_create_excp(type)`, `type` a `u1`.  `fuel` bounds the depth of
the calls between the two entry points and the iterations of the matcher's
loop. -/
def hb_throw_and_create_excp (E : Env) : Nat → State → Nat → Outcome
  | 0, _, _ => .nofuel
  | fuel + 1, s, type =>
    match excp_strs_read E type with
    | .ok class_nm =>
      match hb_create_obj E s.heap class_nm with
      | .ok (ref, heap1) =>
        match E.hb_invoke_ctor { s with heap := heap1 } ref with
        | .ok s1 => hb_throw_exception E fuel s1 ref
        | .fault => .fault
        | .nofuel => .nofuel
      | .fault => .fault
      | .nofuel => .nofuel
    | .fault => .fault
    | .nofuel => .nofuel

/-- `hb_throw_exception(eref)`.  Lines 249 and 250 read `eref->heap_ptr` and
`obj->class` before the test `obj == NULL` of line 252. -/
def hb_throw_exception (E : Env) : Nat → State → Option Nat → Outcome
  | 0, _, _ => .nofuel
  | fuel + 1, s, eref =>
    match eref with
    | none => .fault
    | some r =>
      let obj := s.heap r
      match obj with
      | none => .fault
      | some o =>
        let cls := o.cls
        if obj.isNone then
          hb_throw_and_create_excp E fuel s EXCP_NULL_PTR
        else
          match find_exception_table E (fuel + 1) s.cur_thread cls with
          | .ok (0, th) =>
            match get_excp_str E s.heap eref with
            | .ok msg => .exited EXIT_FAILURE ⟨th.name, E.class_name o.cls, msg⟩
            | .fault => .fault
            | .nofuel => .nofuel
          | .ok (_ + 1, th) =>
            match th.frames with
            | [] => .fault
            | f :: rest =>
              .returned { s with cur_thread := { th with frames :=
                { f with oprs := Function.update f.oprs 0 (var_t.obj eref), sp := 1 } :: rest } }
          | .fault => .fault
          | .nofuel => .nofuel

end

/-! ## A small class universe for the scenarios of §8 -/

/-- Names of the classes of the scenarios, by address; class 7 is the
application class whose methods run in the frames. -/
def demoName : Nat → String
  | 1 => "java/lang/Object"
  | 2 => "java/lang/Throwable"
  | 3 => "java/lang/Exception"
  | 4 => "java/lang/RuntimeException"
  | 5 => "java/lang/ArithmeticException"
  | 6 => "java/lang/NullPointerException"
  | _ => "Main"

/-- Superclass of each class of the scenarios; class 1, the root, has none. -/
def demoSuper : Nat → Option Nat
  | 2 => some 1
  | 3 => some 2
  | 4 => some 3
  | 5 => some 4
  | 6 => some 4
  | 7 => some 1
  | _ => none

/-- Collaborators of the scenarios.  The constant pool of class 7 has slot 0
unset, as the class-file format reserves it, and class entries in slots 1, 3 and
5 naming `ArithmeticException`, `Throwable` and `Exception` through the strings
of slots 2, 4 and 6. -/
def demoEnv : Env where
  const_pool := fun c i => if c = 7 ∧ (i = 1 ∨ i = 3 ∨ i = 5) then some ⟨i + 1⟩ else none
  class_name := demoName
  class_this := fun _ => 8
  hb_get_const_str := fun idx _ =>
    if idx = 2 then .ok "java/lang/ArithmeticException"
    else if idx = 4 then .ok "java/lang/Throwable"
    else if idx = 6 then .ok "java/lang/Exception"
    else .fault
  hb_get_class_name := fun c =>
    match c with
    | some a => .ok (demoName a)
    | none => .fault
  hb_get_super_class := demoSuper
  hb_get_or_load_class := fun nm =>
    if nm = "java/lang/NullPointerException" then some 6
    else if nm = "java/lang/ArithmeticException" then some 5
    else none
  hb_resolve_class := fun _ c => some c
  gc_obj_alloc := fun heap c =>
    (some 100, Function.update heap 100 (some ⟨c, fun _ => var_t.obj none, 0⟩))
  hb_invoke_ctor := fun s _ => .ok s
  malloc := fun _ => true
  excp_strs_beyond := fun _ => .fault

/-- The collaborators of `demoEnv` with slot 0 of every constant pool filled by a
class entry. -/
def demoEnvSlot0 : Env :=
  { demoEnv with
    const_pool := fun c i => if i = 0 then some ⟨2⟩ else demoEnv.const_pool c i }

/-- A frame of a method of class 7 at `pc` with the exception table `tbl`; its
operand stack holds three values. -/
def demoFrame (pc : Nat) (tbl : List excp_table_t) : stack_frame_t :=
  ⟨pc, 7, tbl, fun _ => var_t.char_val 9, 3⟩

/-- A heap with an `ArithmeticException` at reference 10, an `Exception` at
reference 11, both without message, and a reference 12 whose `heap_ptr` is `NULL`. -/
def demoHeap : Heap := fun r =>
  if r = 10 then some ⟨5, fun _ => var_t.obj none, 0⟩
  else if r = 11 then some ⟨3, fun _ => var_t.obj none, 0⟩
  else none

/-- The scenario of §8: one try range `[10,20)` with handler 50 catching
`java/lang/ArithmeticException`, current pc 15. -/
def thScenario : jthread_t :=
  ⟨"main", [demoFrame 15 [⟨10, 20, 50, 1⟩]]⟩

/-- One frame at pc 15 whose table has a first entry for `[30,40)` and a second
entry for `[10,20)`. -/
def thTwoEntries : jthread_t :=
  ⟨"main", [demoFrame 15 [⟨30, 40, 60, 1⟩, ⟨10, 20, 50, 1⟩]]⟩

/-- A callee at pc 15 without exception table above a caller at pc 100 whose
only try range is `[10,20)`. -/
def thCallee : jthread_t :=
  ⟨"main", [demoFrame 15 [], demoFrame 100 [⟨10, 20, 50, 1⟩]]⟩

/-- The caller of `thCallee` alone. -/
def thCaller : jthread_t :=
  ⟨"main", [demoFrame 100 [⟨10, 20, 50, 1⟩]]⟩

/-- Two frames whose try ranges `[30,40)` contain neither pc. -/
def thUnhandled : jthread_t :=
  ⟨"main", [demoFrame 15 [⟨30, 40, 60, 1⟩], demoFrame 100 [⟨30, 40, 60, 3⟩]]⟩

/-- Three frames: at pc 15 with the try range `[30,40)`, at pc 100 with the try
range `[10,20)`, and at pc 7 without exception table. -/
def thDeep : jthread_t :=
  ⟨"main", [demoFrame 15 [⟨30, 40, 60, 1⟩], demoFrame 100 [⟨10, 20, 50, 1⟩], demoFrame 7 []]⟩

/-- The frame of the scenario of §8 on top of a frame whose try range catches
`java/lang/Throwable`. -/
def thHandledOnTop : jthread_t :=
  ⟨"main", [demoFrame 15 [⟨10, 20, 50, 1⟩], demoFrame 15 [⟨10, 20, 50, 3⟩]]⟩

/-- A thread without frames: `cur_frame` is `NULL`. -/
def thEmpty : jthread_t :=
  ⟨"main", []⟩

/-! ## Reading the matcher's answer -/

/-- The catch type of entry `t`, resolved as lines 176-177 do it in the current
frame of `th`, is the name `hb_get_class_name` gives for the class pointer `c`. -/
def catch_name_is (E : Env) (th : jthread_t) (t : excp_table_t) (c : Option Nat) : Prop :=
  ∃ f ci nm, th.cur_frame = some f ∧ E.const_pool f.cls t.catch_type = some ci ∧
    E.hb_get_const_str ci.name_idx f.cls = .ok nm ∧ E.hb_get_class_name c = .ok nm

/-! ## Heaps and collaborators for the scenarios of the dispatcher -/

/-- A heap with an `ArithmeticException` at reference 20 whose message, the string
object at reference 21, wraps the character array at reference 22 holding
`/ by zero`. -/
def msgHeap : Heap := fun r =>
  if r = 20 then some ⟨5, fun i => if i = 0 then var_t.obj (some 21) else var_t.obj none, 0⟩
  else if r = 21 then some ⟨8, fun i => if i = 0 then var_t.obj (some 22) else var_t.obj none, 0⟩
  else if r = 22 then some ⟨9, fun i => var_t.char_val ("/ by zero".data.getD i ' ').toNat, 9⟩
  else none

/-- A heap with an exception at reference 30 whose message is the one-character
string made of the euro sign, character value 8364. -/
def euroHeap : Heap := fun r =>
  if r = 30 then some ⟨5, fun i => if i = 0 then var_t.obj (some 31) else var_t.obj none, 0⟩
  else if r = 31 then some ⟨8, fun i => if i = 0 then var_t.obj (some 32) else var_t.obj none, 0⟩
  else if r = 32 then some ⟨9, fun _ => var_t.char_val 8364, 1⟩
  else none

/-- A heap with an exception at reference 40 whose message string, at reference
41, has no character array. -/
def emptyMsgHeap : Heap := fun r =>
  if r = 40 then some ⟨5, fun i => if i = 0 then var_t.obj (some 41) else var_t.obj none, 0⟩
  else if r = 41 then some ⟨8, fun _ => var_t.obj none, 0⟩
  else none

/-- The collaborators of `demoEnv` when `malloc` returns `NULL`. -/
def demoEnvNoMem : Env :=
  { demoEnv with malloc := fun _ => false }

/-- The collaborators of `demoEnv` when the pointers that lie after the table
`excp_strs` point to the text `java/lang/ArithmeticException`. -/
def demoEnvBeyond : Env :=
  { demoEnv with excp_strs_beyond := fun _ => .ok "java/lang/ArithmeticException" }

/-- The collaborators of `demoEnv` when the allocator returns no object. -/
def demoEnvNoAlloc : Env :=
  { demoEnv with gc_obj_alloc := fun heap _ => (none, heap) }

/-- Collaborators `E` changed so that every class loads and resolves to class 5
and the allocator returns no object. -/
def withFailingAlloc (E : Env) : Env :=
  { E with
    hb_get_or_load_class := fun _ => some 5
    hb_resolve_class := fun _ c => some c
    gc_obj_alloc := fun heap _ => (none, heap) }

/-- Collaborators `E` changed so that the class loader finds no class. -/
def withFailingLoader (E : Env) : Env :=
  { E with hb_get_or_load_class := fun _ => none }

/-! ## Lemmas on the matcher -/

@[simp] theorem Res.ok_bind {α β : Type} (a : α) (k : α → Res β) :
    (Res.ok a >>= k) = k a := rfl

@[simp] theorem Res.fault_bind {α β : Type} (k : α → Res β) :
    ((Res.fault : Res α) >>= k) = Res.fault := rfl

@[simp] theorem Res.nofuel_bind {α β : Type} (k : α → Res β) :
    ((Res.nofuel : Res α) >>= k) = Res.nofuel := rfl

/-- Outside the range of the entry the matcher returns 0 at once. -/
theorem check_of_not_in_range (E : Env) (fuel : Nat) (th : jthread_t) (t : excp_table_t)
    (cls curpc : Nat) (h : ¬ (t.start_pc ≤ curpc ∧ curpc < t.end_pc)) :
    check_catchtype_and_class E fuel th t cls curpc = .ok 0 := by
  unfold check_catchtype_and_class
  rw [if_neg h]

/-- Inside the range, with the four reads of lines 176-178 done, the matcher is
the test of line 180 followed by the ancestor loop. -/
theorem check_in_range (E : Env) (fuel : Nat) (th : jthread_t) (t : excp_table_t)
    (cls curpc : Nat) (f : stack_frame_t) (c : CONSTANT_Class_info_t) (tname cname : String)
    (hr : t.start_pc ≤ curpc ∧ curpc < t.end_pc)
    (hf : th.cur_frame = some f)
    (hc : E.const_pool f.cls t.catch_type = some c)
    (ht : E.hb_get_const_str c.name_idx f.cls = .ok tname)
    (hn : E.hb_get_class_name (some cls) = .ok cname) :
    check_catchtype_and_class E fuel th t cls curpc =
      if t.catch_type = 0 ∨ cname = tname then .ok 1
      else (E.hb_get_class_name (E.hb_get_super_class cls) >>= fun cname1 =>
        super_loop E cls tname fuel (E.hb_get_super_class cls) cname1) := by
  unfold check_catchtype_and_class
  rw [if_pos hr, hf]
  simp only [deref, Res.ok_bind, hc, ht, hn]

/-- The ancestor loop asks for the superclass of the thrown class again at every
iteration: entered with a superclass whose name differs from the catch type, it
never leaves. -/
theorem super_loop_no_progress (E : Env) (cls : Nat) (tname cname : String) (sup : Nat)
    (hs : E.hb_get_super_class cls = some sup)
    (hn : E.hb_get_class_name (some sup) = .ok cname)
    (hne : cname ≠ tname) :
    ∀ fuel, super_loop E cls tname fuel (some sup) cname = .nofuel := by
  intro fuel
  induction fuel with
  | zero => rfl
  | succ n ih =>
    rw [super_loop, if_neg hne]
    simp only [hs, hn]
    exact ih

/-! ## Lemmas on the unwinder -/

theorem for_entries_of_zero (E : Env) (fuel : Nat) (th : jthread_t) (t : excp_table_t)
    (cls curpc : Nat) (h : check_catchtype_and_class E fuel th t cls curpc = .ok 0) :
    ∀ n, for_entries E fuel th t cls curpc n = .ok false := by
  intro n
  induction n with
  | zero => rfl
  | succ n ih => simp [for_entries, h, ih]

theorem for_entries_of_nonzero (E : Env) (fuel : Nat) (th : jthread_t) (t : excp_table_t)
    (cls curpc r : Nat) (h : check_catchtype_and_class E fuel th t cls curpc = .ok r)
    (hr : r ≠ 0) (n : Nat) :
    for_entries E fuel th t cls curpc (n + 1) = .ok true := by
  simp [for_entries, h, hr]

theorem for_entries_returns (E : Env) (fuel : Nat) (th : jthread_t) (t : excp_table_t)
    (cls curpc r : Nat) (h : check_catchtype_and_class E fuel th t cls curpc = .ok r)
    (n : Nat) :
    for_entries E fuel th t cls curpc (n + 1) = .ok (decide (r ≠ 0)) := by
  by_cases hr : r = 0
  · subst hr
    simpa using for_entries_of_zero E fuel th t cls curpc h (n + 1)
  · simpa [hr] using for_entries_of_nonzero E fuel th t cls curpc r h hr n

theorem iterate_pop_frames (th : jthread_t) :
    ∀ j, (hb_pop_frame^[j] th).frames = th.frames.drop j := by
  intro j
  induction j generalizing th with
  | zero => rfl
  | succ j ih =>
    rw [Function.iterate_succ_apply, ih]
    simp [hb_pop_frame, List.drop_succ_cons, List.tail_drop]

theorem iterate_pop_name (th : jthread_t) :
    ∀ j, (hb_pop_frame^[j] th).name = th.name := by
  intro j
  induction j generalizing th with
  | zero => rfl
  | succ j ih =>
    rw [Function.iterate_succ_apply, ih]
    rfl

/-- One pass of the loop of `find_exception_table` on a current frame for which
no call of the matcher reports a match: the frame is popped and the loop goes on
with the frame below. -/
theorem find_loop_pop (E : Env) (fuel cls curpc k : Nat) (th : jthread_t) (f : stack_frame_t)
    (hf : th.cur_frame = some f)
    (h0 : ∀ t, f.excp_table.head? = some t →
      check_catchtype_and_class E fuel th t cls curpc = .ok 0) :
    find_loop E fuel cls curpc (k + 1) th = find_loop E fuel cls curpc k (hb_pop_frame th) := by
  obtain ⟨name, frames⟩ := th
  cases frames with
  | nil => simp [jthread_t.cur_frame] at hf
  | cons g rest =>
    simp only [jthread_t.cur_frame, List.head?_cons, Option.some.injEq] at hf
    subst hf
    rw [find_loop]
    cases htab : g.excp_table with
    | nil => simp [htab]
    | cons t ts =>
      have := h0 t (by simp [htab])
      simp [htab, for_entries_of_zero E fuel _ t cls curpc this]

/-- One pass of the loop on a current frame whose first entry the matcher
accepts: the frame gets the handler of that entry and the function returns 1. -/
theorem find_loop_hit (E : Env) (fuel cls curpc k r : Nat) (th : jthread_t) (f : stack_frame_t)
    (rest : List stack_frame_t) (t : excp_table_t)
    (hf : th.frames = f :: rest) (ht : f.excp_table.head? = some t)
    (h1 : check_catchtype_and_class E fuel th t cls curpc = .ok r) (hr : r ≠ 0) :
    find_loop E fuel cls curpc (k + 1) th
      = .ok (1, { th with frames := { f with pc := t.handler_pc } :: rest }) := by
  obtain ⟨name, frames⟩ := th
  simp only at hf
  subst hf
  rw [find_loop]
  cases htab : f.excp_table with
  | nil => simp [htab] at ht
  | cons t1 ts =>
    simp only [htab, List.head?_cons, Option.some.injEq] at ht
    subst ht
    simp [htab, for_entries_of_nonzero E fuel _ t1 cls curpc r h1 hr]

/-- What `find_loop` can return: 0 with every frame popped, or 1 with the frame
that was current after `j` pops given the handler of its first entry. -/
theorem find_loop_shape (E : Env) (fuel cls curpc : Nat) :
    ∀ (k : Nat) (th : jthread_t) (r : Nat) (th1 : jthread_t),
      find_loop E fuel cls curpc k th = .ok (r, th1) →
      ∃ j, j ≤ th.frames.length ∧
        ((r = 0 ∧ j = th.frames.length ∧ th1 = hb_pop_frame^[j] th) ∨
         (r = 1 ∧ ∃ f rest t, (hb_pop_frame^[j] th).frames = f :: rest ∧
            f.excp_table.head? = some t ∧
            th1 = { hb_pop_frame^[j] th with frames := { f with pc := t.handler_pc } :: rest })) := by
  intro k
  induction k with
  | zero => intro th r th1 h; simp [find_loop] at h
  | succ k ih =>
    intro th r th1 h
    obtain ⟨name, frames⟩ := th
    have step : ∀ g rest, frames = g :: rest →
        find_loop E fuel cls curpc k (hb_pop_frame ⟨name, frames⟩) = .ok (r, th1) →
        ∃ j, j ≤ frames.length ∧
          ((r = 0 ∧ j = frames.length ∧ th1 = hb_pop_frame^[j] ⟨name, frames⟩) ∨
           (r = 1 ∧ ∃ f rest t, (hb_pop_frame^[j] ⟨name, frames⟩).frames = f :: rest ∧
              f.excp_table.head? = some t ∧
              th1 = { hb_pop_frame^[j] ⟨name, frames⟩ with
                frames := { f with pc := t.handler_pc } :: rest })) := by
      intro g rest hfr hrec
      obtain ⟨j, hj, hcase⟩ := ih _ r th1 hrec
      subst hfr
      refine ⟨j + 1, by simpa [hb_pop_frame] using hj, ?_⟩
      rcases hcase with ⟨h0, hlen, heq⟩ | ⟨h1, f, rest1, t, hfr1, ht, heq⟩
      · exact Or.inl ⟨h0, by simpa [hb_pop_frame] using hlen, heq⟩
      · exact Or.inr ⟨h1, f, rest1, t, hfr1, ht, heq⟩
    cases frames with
    | nil =>
      simp only [find_loop, Res.ok.injEq, Prod.mk.injEq] at h
      exact ⟨0, le_refl _, Or.inl ⟨h.1.symm, rfl, h.2.symm⟩⟩
    | cons g rest =>
      rw [find_loop] at h
      cases htab : g.excp_table with
      | nil =>
        simp only [htab] at h
        exact step g rest rfl h
      | cons t ts =>
        simp only [htab] at h
        simp only [List.length_cons] at h
        cases hfe : for_entries E fuel ⟨name, g :: rest⟩ t cls curpc (ts.length + 1) with
        | ok b =>
          cases b with
          | true =>
            simp only [hfe, Res.ok.injEq, Prod.mk.injEq] at h
            refine ⟨0, Nat.zero_le _, Or.inr ⟨h.1.symm, g, rest, t, rfl, by simp [htab], ?_⟩⟩
            rw [← h.2, htab]
            rfl
          | false =>
            simp only [hfe] at h
            exact step g rest rfl h
        | fault => simp [hfe] at h
        | nofuel => simp [hfe] at h

/-- With one loop test per frame and one more, `find_loop` returns provided the
calls of the matcher it makes return: the call for the frame reached after `j`
pops is made when the calls for the frames above it reported no match.  It then
reports 1 only for a frame whose first entry the matcher accepted. -/
theorem find_loop_returns (E : Env) (fuel cls curpc : Nat) :
    ∀ (k : Nat) (th : jthread_t), th.frames.length < k →
      (∀ j f t,
        (∀ i fi ti, i < j → (hb_pop_frame^[i] th).cur_frame = some fi →
          fi.excp_table.head? = some ti →
          check_catchtype_and_class E fuel (hb_pop_frame^[i] th) ti cls curpc = .ok 0) →
        (hb_pop_frame^[j] th).cur_frame = some f → f.excp_table.head? = some t →
        ∃ r, check_catchtype_and_class E fuel (hb_pop_frame^[j] th) t cls curpc = .ok r) →
      ∃ r th1, find_loop E fuel cls curpc k th = .ok (r, th1) ∧
        (r = 1 → ∃ j f t r1, (hb_pop_frame^[j] th).cur_frame = some f ∧
          f.excp_table.head? = some t ∧ r1 ≠ 0 ∧
          check_catchtype_and_class E fuel (hb_pop_frame^[j] th) t cls curpc = .ok r1) := by
  intro k
  induction k with
  | zero => intro th hk; omega
  | succ k ih =>
    intro th hk hret
    cases hcur : th.cur_frame with
    | none =>
      obtain ⟨name, frames⟩ := th
      cases frames with
      | nil => exact ⟨0, ⟨name, []⟩, by simp [find_loop], by simp⟩
      | cons g rest => simp [jthread_t.cur_frame] at hcur
    | some f =>
      have hlen : (hb_pop_frame th).frames.length < k := by
        obtain ⟨name, frames⟩ := th
        cases frames with
        | nil => simp [jthread_t.cur_frame] at hcur
        | cons g rest => simpa [hb_pop_frame] using hk
      have hpop : (∀ t, f.excp_table.head? = some t →
            check_catchtype_and_class E fuel th t cls curpc = .ok 0) →
          ∃ r th1, find_loop E fuel cls curpc k (hb_pop_frame th) = .ok (r, th1) ∧
          (r = 1 → ∃ j f t r1, (hb_pop_frame^[j] th).cur_frame = some f ∧
            f.excp_table.head? = some t ∧ r1 ≠ 0 ∧
            check_catchtype_and_class E fuel (hb_pop_frame^[j] th) t cls curpc = .ok r1) := by
        intro h0
        have hret1 : ∀ j f1 t1,
            (∀ i fi ti, i < j → (hb_pop_frame^[i] (hb_pop_frame th)).cur_frame = some fi →
              fi.excp_table.head? = some ti →
              check_catchtype_and_class E fuel (hb_pop_frame^[i] (hb_pop_frame th)) ti cls curpc
                = .ok 0) →
            (hb_pop_frame^[j] (hb_pop_frame th)).cur_frame = some f1 →
            f1.excp_table.head? = some t1 →
            ∃ r, check_catchtype_and_class E fuel (hb_pop_frame^[j] (hb_pop_frame th)) t1 cls curpc
              = .ok r := by
          intro j f1 t1 hprev hf1 ht1
          refine hret (j + 1) f1 t1 ?_ hf1 ht1
          intro i fi ti hi hfi hti
          cases i with
          | zero =>
            have hfi0 : th.cur_frame = some fi := hfi
            rw [hcur] at hfi0
            cases hfi0
            exact h0 ti hti
          | succ i => exact hprev i fi ti (by omega) hfi hti
        obtain ⟨r, th1, hres, hone⟩ := ih (hb_pop_frame th) hlen hret1
        refine ⟨r, th1, hres, fun h1 => ?_⟩
        obtain ⟨j, f1, t1, r1, h⟩ := hone h1
        exact ⟨j + 1, f1, t1, r1, h⟩
      cases htab : f.excp_table.head? with
      | none =>
        have h0 : ∀ t, f.excp_table.head? = some t →
            check_catchtype_and_class E fuel th t cls curpc = .ok 0 := by
          simp [htab]
        rw [find_loop_pop E fuel cls curpc k th f hcur h0]
        exact hpop h0
      | some t =>
        obtain ⟨r, hr⟩ := hret 0 f t (fun i _ _ hi => absurd hi (Nat.not_lt_zero i)) hcur htab
        by_cases hr0 : r = 0
        · subst hr0
          have h0 : ∀ t1, f.excp_table.head? = some t1 →
              check_catchtype_and_class E fuel th t1 cls curpc = .ok 0 :=
            fun t1 ht1 => by rw [htab] at ht1; cases ht1; exact hr
          rw [find_loop_pop E fuel cls curpc k th f hcur h0]
          exact hpop h0
        · obtain ⟨name, frames⟩ := th
          cases frames with
          | nil => simp [jthread_t.cur_frame] at hcur
          | cons g rest =>
            simp only [jthread_t.cur_frame, List.head?_cons, Option.some.injEq] at hcur
            subst hcur
            refine ⟨1, _, find_loop_hit E fuel cls curpc k r _ g rest t rfl htab hr hr0, fun _ => ?_⟩
            exact ⟨0, g, t, r, rfl, htab, hr0, hr⟩

theorem cur_frame_iterate_mem (th : jthread_t) (j : Nat) (f : stack_frame_t)
    (h : (hb_pop_frame^[j] th).cur_frame = some f) : f ∈ th.frames := by
  unfold jthread_t.cur_frame at h
  rw [iterate_pop_frames] at h
  exact List.mem_of_mem_drop (List.mem_of_mem_head? h)

/-- A call of the matcher that does not return keeps the unwinder from returning. -/
theorem find_loop_stuck (E : Env) (fuel cls curpc k : Nat) (th : jthread_t) (f : stack_frame_t)
    (rest : List stack_frame_t) (t : excp_table_t) (ts : List excp_table_t)
    (hf : th.frames = f :: rest) (ht : f.excp_table = t :: ts)
    (h : check_catchtype_and_class E fuel th t cls curpc = .nofuel) :
    find_loop E fuel cls curpc (k + 1) th = .nofuel := by
  rw [find_loop]
  simp [hf, ht, for_entries, h]

/-! ## The claims -/

/-- C1 (the code departs from it): `find_exception_table` tests the first entry of
the table at every iteration of its `for` loop.  In a frame at pc 15 whose first
entry `[30,40)` the matcher rejects and whose second entry `[10,20)` the matcher
accepts, no handler is selected: the frame is popped and 0 is returned. -/
theorem find_exception_table_first_entry_only :
    check_catchtype_and_class demoEnv 1 thTwoEntries ⟨30, 40, 60, 1⟩ 5 15 = .ok 0 ∧
    check_catchtype_and_class demoEnv 1 thTwoEntries ⟨10, 20, 50, 1⟩ 5 15 = .ok 1 ∧
    find_exception_table demoEnv 1 thTwoEntries 5 = .ok (0, ⟨"main", []⟩) :=
  ⟨rfl, rfl, rfl⟩

/-- C2: outside `[start_pc, end_pc)` `check_catchtype_and_class` returns 0, whatever
the catch type, the thrown class, the class hierarchy and the thread are. -/
theorem check_catchtype_and_class_out_of_range (E : Env) (fuel : Nat) (th : jthread_t)
    (t : excp_table_t) (cls curpc : Nat) (h : curpc < t.start_pc ∨ t.end_pc ≤ curpc) :
    check_catchtype_and_class E fuel th t cls curpc = .ok 0 :=
  check_of_not_in_range E fuel th t cls curpc (by omega)

/-- Witness of C2: pc 25 against the range `[10,20)`, on a thread without frames. -/
theorem check_catchtype_and_class_out_of_range_witness :
    (25 < 10 ∨ 20 ≤ 25) ∧
    check_catchtype_and_class demoEnv 0 thEmpty ⟨10, 20, 50, 0⟩ 5 25 = .ok 0 :=
  ⟨by decide, check_catchtype_and_class_out_of_range demoEnv 0 thEmpty ⟨10, 20, 50, 0⟩ 5 25
    (by decide)⟩

/-- C3 (the code departs from it): for a catch-all entry in range the matcher
reads slot 0 of the constant pool before it looks at `catch_type`.  With slot 0
unset the call dereferences `NULL`; with slot 0 filled it returns 1. -/
theorem check_catchtype_and_class_catch_all_reads_slot :
    (∀ fuel, check_catchtype_and_class demoEnv fuel thScenario ⟨10, 20, 50, 0⟩ 5 15 = .fault) ∧
    (∀ fuel, check_catchtype_and_class demoEnvSlot0 fuel thScenario ⟨10, 20, 50, 0⟩ 5 15
      = .ok 1) :=
  ⟨fun _ => rfl, fun _ => rfl⟩

/-- C4: in range, when the constant-pool entry of `catch_type` resolves to the name
of the thrown class, `check_catchtype_and_class` returns 1. -/
theorem check_catchtype_and_class_exact_name (E : Env) (fuel : Nat) (th : jthread_t)
    (t : excp_table_t) (cls curpc : Nat) (f : stack_frame_t) (c : CONSTANT_Class_info_t)
    (nm : String)
    (hr : t.start_pc ≤ curpc ∧ curpc < t.end_pc)
    (hf : th.cur_frame = some f)
    (hc : E.const_pool f.cls t.catch_type = some c)
    (ht : E.hb_get_const_str c.name_idx f.cls = .ok nm)
    (hn : E.hb_get_class_name (some cls) = .ok nm) :
    check_catchtype_and_class E fuel th t cls curpc = .ok 1 := by
  rw [check_in_range E fuel th t cls curpc f c nm nm hr hf hc ht hn]
  simp

/-- Witness of C4: the scenario of §8, thrown `java/lang/ArithmeticException`. -/
theorem check_catchtype_and_class_exact_name_witness :
    check_catchtype_and_class demoEnv 0 thScenario ⟨10, 20, 50, 1⟩ 5 15 = .ok 1 :=
  check_catchtype_and_class_exact_name demoEnv 0 thScenario ⟨10, 20, 50, 1⟩ 5 15
    (demoFrame 15 [⟨10, 20, 50, 1⟩]) ⟨2⟩ "java/lang/ArithmeticException"
    (by decide) rfl rfl rfl rfl

/-- C5 (the code departs from it): thrown `ArithmeticException`, whose superclass
chain goes through `RuntimeException` to `Exception`, against an in-range entry
that catches `Exception`.  The loop asks for the superclass of the thrown class
at every iteration, sees `RuntimeException` each time and never returns. -/
theorem check_catchtype_and_class_grandparent_loops :
    demoEnv.hb_get_super_class 5 = some 4 ∧ demoEnv.hb_get_super_class 4 = some 3 ∧
    demoEnv.hb_get_const_str 6 7 = demoEnv.hb_get_class_name (some 3) ∧
    ∀ fuel, check_catchtype_and_class demoEnv fuel thScenario ⟨10, 20, 50, 5⟩ 5 15
      = .nofuel := by
  refine ⟨rfl, rfl, rfl, fun fuel => ?_⟩
  rw [check_in_range demoEnv fuel thScenario ⟨10, 20, 50, 5⟩ 5 15
    (demoFrame 15 [⟨10, 20, 50, 1⟩]) ⟨6⟩ "java/lang/Exception" "java/lang/ArithmeticException"
    (by decide) rfl rfl rfl rfl]
  rw [if_neg (by decide)]
  exact super_loop_no_progress demoEnv 5 "java/lang/Exception" "java/lang/RuntimeException" 4
    rfl rfl (by decide) fuel

/-- C6 (the code departs from it): thrown `java/lang/Exception` against an in-range
handler for `java/lang/ArithmeticException`.  No ancestor has that name, and the
matcher never returns; neither does the resolver, which pops no frame. -/
theorem check_catchtype_and_class_unrelated_loops :
    ∀ fuel, check_catchtype_and_class demoEnv fuel thScenario ⟨10, 20, 50, 1⟩ 3 15 = .nofuel ∧
      find_exception_table demoEnv fuel thScenario 3 = .nofuel := by
  intro fuel
  have h : check_catchtype_and_class demoEnv fuel thScenario ⟨10, 20, 50, 1⟩ 3 15
      = .nofuel := by
    rw [check_in_range demoEnv fuel thScenario ⟨10, 20, 50, 1⟩ 3 15
      (demoFrame 15 [⟨10, 20, 50, 1⟩]) ⟨2⟩ "java/lang/ArithmeticException"
      "java/lang/Exception" (by decide) rfl rfl rfl rfl]
    rw [if_neg (by decide)]
    exact super_loop_no_progress demoEnv 3 "java/lang/ArithmeticException"
      "java/lang/Throwable" 2 rfl rfl (by decide) fuel
  refine ⟨h, ?_⟩
  show find_loop demoEnv fuel 3 15 2 thScenario = .nofuel
  exact find_loop_stuck demoEnv fuel 3 15 1 thScenario _ _ _ _ rfl rfl h

/-- C7: when the reference designates a live object and the resolver reports a
handler, `hb_throw_exception` returns with the resolver's current frame as the
current frame, its pc kept, its operand-stack cursor `sp` set to 1 and its slot 0
holding the thrown reference, whatever the operand stack held before. -/
theorem hb_throw_exception_handler_stack (E : Env) (fuel : Nat) (s : State) (r : Nat)
    (o : native_obj_t) (th : jthread_t)
    (hlive : s.heap r = some o)
    (hfind : find_exception_table E (fuel + 1) s.cur_thread o.cls = .ok (1, th)) :
    ∃ f rest f1, th.frames = f :: rest ∧
      hb_throw_exception E (fuel + 1) s (some r) = .returned ⟨⟨th.name, f1 :: rest⟩, s.heap⟩ ∧
      f1.pc = f.pc ∧ f1.sp = 1 ∧ f1.oprs 0 = var_t.obj (some r) := by
  have hshape : ∃ f rest, th.frames = f :: rest := by
    unfold find_exception_table at hfind
    cases hcur : deref s.cur_thread.cur_frame with
    | ok f0 =>
      rw [hcur] at hfind
      obtain ⟨j, -, hcase⟩ := find_loop_shape E (fuel + 1) o.cls f0.pc _ _ _ _ hfind
      rcases hcase with ⟨h0, -, -⟩ | ⟨-, f, rest, t, -, -, heq⟩
      · exact absurd h0 (by decide)
      · exact ⟨_, rest, by rw [heq]⟩
    | fault => rw [hcur] at hfind; exact absurd hfind (by simp)
    | nofuel => rw [hcur] at hfind; exact absurd hfind (by simp)
  obtain ⟨f, rest, hfr⟩ := hshape
  refine ⟨f, rest, { f with oprs := Function.update f.oprs 0 (var_t.obj (some r)), sp := 1 },
    hfr, ?_, rfl, rfl, by simp⟩
  rw [hb_throw_exception]
  simp only [hlive, hfind, hfr, Option.isNone_some]
  rfl

/-- Witness of C7, the scenario of §8: try range `[10,20)` with handler 50, thrown
class matching exactly, pc 15; the frame ends at pc 50 with operand-stack depth 1. -/
theorem hb_throw_exception_handler_stack_witness :
    ∃ f1, hb_throw_exception demoEnv 1 ⟨thScenario, demoHeap⟩ (some 10)
        = .returned ⟨⟨"main", [f1]⟩, demoHeap⟩ ∧
      f1.pc = 50 ∧ f1.sp = 1 ∧ f1.oprs 0 = var_t.obj (some 10) := by
  obtain ⟨f, rest, f1, hfr, hthrow, hpc, hsp, h0⟩ :=
    hb_throw_exception_handler_stack demoEnv 0 ⟨thScenario, demoHeap⟩ 10
      ⟨5, fun _ => var_t.obj none, 0⟩
      ⟨"main", [{ demoFrame 15 [⟨10, 20, 50, 1⟩] with pc := 50 }]⟩ rfl rfl
  simp only [List.cons.injEq] at hfr
  obtain ⟨rfl, rfl⟩ := hfr
  exact ⟨f1, hthrow, hpc, hsp, h0⟩

/-- C8 (the code departs from it): the pc of the range check is read once, from the
frame on top when unwinding begins.  The caller of `thCallee` is at pc 100,
outside its only try range `[10,20)`, and the matcher rejects that entry at pc
100; yet after the callee at pc 15 is popped the caller handles the exception. -/
theorem find_exception_table_stale_pc :
    hb_pop_frame thCallee = thCaller ∧
    check_catchtype_and_class demoEnv 1 thCaller ⟨10, 20, 50, 1⟩ 5 100 = .ok 0 ∧
    find_exception_table demoEnv 1 thCallee 5
      = .ok (1, ⟨"main", [{ demoFrame 100 [⟨10, 20, 50, 1⟩] with pc := 50 }]⟩) :=
  ⟨rfl, rfl, rfl⟩

/-- C9 (the code departs from it): in `thDeep` no frame has an entry that the
matcher accepts at the frame's own pc, and every call of the matcher returns.
The pc read once on line 208 makes the second frame handle the exception: 1 is
returned after one pop with two frames left, not 0 after three pops with no
frame left.  On a thread without frames the same read, made before the loop
tests `cur_frame`, dereferences `NULL`. -/
theorem find_exception_table_unhandled_missed :
    thDeep.frames.length = 3 ∧
    check_catchtype_and_class demoEnv 1 thDeep ⟨30, 40, 60, 1⟩ 5 15 = .ok 0 ∧
    check_catchtype_and_class demoEnv 1 (hb_pop_frame thDeep) ⟨10, 20, 50, 1⟩ 5 100 = .ok 0 ∧
    ((hb_pop_frame (hb_pop_frame thDeep)).cur_frame.map fun f => f.excp_table) = some [] ∧
    find_exception_table demoEnv 1 thDeep 5
      = .ok (1, ⟨"main", [{ demoFrame 100 [⟨10, 20, 50, 1⟩] with pc := 50 }, demoFrame 7 []]⟩) ∧
    thEmpty.frames.length = 0 ∧
    find_exception_table demoEnv 1 thEmpty 5 = .fault :=
  ⟨rfl, rfl, rfl, rfl, rfl, rfl, rfl⟩

/-- C10 (the code departs from it): `hb_throw_exception` reads `eref->heap_ptr` and
`obj->class` before it tests `obj == NULL`.  On a `NULL` reference, and on a
reference whose `heap_ptr` is `NULL`, it dereferences `NULL`, whereas
`hb_throw_and_create_excp(EXCP_NULL_PTR)` on the same state throws a
`java/lang/NullPointerException`, here uncaught. -/
theorem hb_throw_exception_null_ref :
    (∀ (E : Env) (fuel : Nat) (s : State), hb_throw_exception E (fuel + 1) s none = .fault) ∧
    (∀ fuel, hb_throw_exception demoEnv (fuel + 1) ⟨thUnhandled, demoHeap⟩ (some 12) = .fault) ∧
    hb_throw_and_create_excp demoEnv 2 ⟨thUnhandled, demoHeap⟩ EXCP_NULL_PTR
      = .exited EXIT_FAILURE ⟨"main", "java/lang/NullPointerException", none⟩ :=
  ⟨fun _ _ _ => rfl, fun _ => rfl, rfl⟩

/-! ## Lemmas on the dispatcher and on message extraction -/

/-- What `find_exception_table` can return, in terms of the frames it was given:
0 with every frame popped, or 1 with `j` frames popped and the frame then on top
given the handler of its first entry.  The name of the thread is kept. -/
theorem find_exception_table_shape (E : Env) (fuel cls r : Nat) (th th1 : jthread_t)
    (h : find_exception_table E fuel th cls = .ok (r, th1)) :
    th1.name = th.name ∧
    ((r = 0 ∧ th1.frames = []) ∨
     (r = 1 ∧ ∃ j f rest t, th.frames.drop j = f :: rest ∧ f.excp_table.head? = some t ∧
        th1.frames = { f with pc := t.handler_pc } :: rest)) := by
  unfold find_exception_table at h
  cases hcur : deref th.cur_frame with
  | ok f0 =>
    rw [hcur] at h
    obtain ⟨j, -, hcase⟩ := find_loop_shape E fuel cls f0.pc _ _ _ _ h
    rcases hcase with ⟨h0, hlen, heq⟩ | ⟨h1, f, rest, t, hfr, ht, heq⟩
    · refine ⟨by rw [heq, iterate_pop_name], Or.inl ⟨h0, ?_⟩⟩
      rw [heq, iterate_pop_frames, hlen]
      simp
    · refine ⟨by rw [heq]; exact iterate_pop_name th j, Or.inr ⟨h1, j, f, rest, t, ?_, ht, ?_⟩⟩
      · rw [← iterate_pop_frames, hfr]
      · rw [heq]
  | fault => rw [hcur] at h; exact absurd h (by simp)
  | nofuel => rw [hcur] at h; exact absurd h (by simp)

/-- The copy loop of lines 150-152 on an array whose elements hold the character
values `cs i`. -/
theorem copy_chars_of_chars (arr_obj : native_obj_t) (cs : Nat → Nat) :
    ∀ n, (∀ i, i < n → arr_obj.fields i = var_t.char_val (cs i)) →
      copy_chars arr_obj n = .ok ((List.range n).map fun i => cs i % 256) := by
  intro n
  induction n with
  | zero => intro _; rfl
  | succ n ih =>
    intro h
    rw [copy_chars, ih (fun i hi => h i (Nat.lt_succ_of_lt hi)), h n (Nat.lt_succ_self n)]
    simp [var_t.get_char_val, List.range_succ]

/-- The copy loop never returns `NULL`-like results: it yields bytes or stops. -/
theorem get_excp_str_after_malloc (arr_obj : native_obj_t) (n : Nat) :
    (copy_chars arr_obj n >>= fun bytes => (Res.ok (some (bytes ++ [0])) : Res (Option (List Nat))))
      ≠ .ok none := by
  cases copy_chars arr_obj n <;> simp

/-! ## The claims on the dispatcher, the factory and the registry -/

/-- C11, counterexample: a live `ArithmeticException` with message `/ by zero`, no
handler in any frame, and `malloc` returning `NULL`: `get_excp_str` writes
through the `NULL` buffer and `hb_throw_exception` never reaches `exit`. -/
theorem hb_throw_exception_uncaught_no_buffer :
    (msgHeap 20).isSome = true ∧
    find_exception_table demoEnvNoMem 1 thUnhandled 5 = .ok (0, ⟨"main", []⟩) ∧
    hb_throw_exception demoEnvNoMem 1 ⟨thUnhandled, msgHeap⟩ (some 20) = .fault :=
  ⟨rfl, rfl, rfl⟩

/-- C11, amended: for a live reference for which the resolver returns 0 and
`get_excp_str` returns, `hb_throw_exception` ends in `exit` with the status
`EXIT_FAILURE`, which is not 0, and a report made of the name of the current
thread, the class name of the thrown object and the extracted message. -/
theorem hb_throw_exception_uncaught (E : Env) (fuel : Nat) (s : State) (r : Nat)
    (o : native_obj_t) (th : jthread_t) (msg : Option (List Nat))
    (hlive : s.heap r = some o)
    (hfind : find_exception_table E (fuel + 1) s.cur_thread o.cls = .ok (0, th))
    (hmsg : get_excp_str E s.heap (some r) = .ok msg) :
    hb_throw_exception E (fuel + 1) s (some r)
      = .exited EXIT_FAILURE ⟨s.cur_thread.name, E.class_name o.cls, msg⟩ ∧
    EXIT_FAILURE ≠ 0 := by
  have hname := (find_exception_table_shape E (fuel + 1) o.cls 0 s.cur_thread th hfind).1
  refine ⟨?_, by decide⟩
  rw [hb_throw_exception]
  simp only [hlive, hfind, hmsg, Option.isNone_some, hname]
  rfl

/-- Witness of C11: thread `main`, class `java/lang/ArithmeticException`, message
`/ by zero`; the report holds exactly these three texts, the message as the
bytes of the returned buffer. -/
theorem hb_throw_exception_uncaught_witness :
    hb_throw_exception demoEnv 1 ⟨thUnhandled, msgHeap⟩ (some 20)
      = .exited EXIT_FAILURE ⟨"main", "java/lang/ArithmeticException",
          some ("/ by zero".data.map Char.toNat ++ [0])⟩ ∧
    EXIT_FAILURE ≠ 0 :=
  hb_throw_exception_uncaught demoEnv 0 ⟨thUnhandled, msgHeap⟩ 20
    ⟨5, fun i => if i = 0 then var_t.obj (some 21) else var_t.obj none, 0⟩
    ⟨"main", []⟩ (some ("/ by zero".data.map Char.toNat ++ [0])) rfl rfl rfl

/-- C12: on an exception object, `get_excp_str` returns `NULL` exactly when field 0
of the object is an unset reference, or field 0 references a string object
whose own field 0 is an unset reference. -/
theorem get_excp_str_absent (E : Env) (heap : Heap) (r : Nat) (obj : native_obj_t)
    (hobj : heap r = some obj) :
    get_excp_str E heap (some r) = .ok none ↔
      obj.fields 0 = var_t.obj none ∨
      ∃ sr str_obj, obj.fields 0 = var_t.obj (some sr) ∧ heap sr = some str_obj ∧
        str_obj.fields 0 = var_t.obj none := by
  unfold get_excp_str
  simp only [deref, Res.ok_bind, hobj]
  cases hf0 : obj.fields 0 with
  | char_val c => simp [var_t.get_obj]
  | obj p =>
    cases p with
    | none => simp [var_t.get_obj]
    | some sr =>
      simp only [var_t.get_obj, Res.ok_bind, var_t.obj.injEq, Option.some.injEq,
        false_or, reduceCtorEq]
      cases hstr : heap sr with
      | none => simp [hstr]
      | some str_obj =>
        simp only [Res.ok_bind]
        cases hs0 : str_obj.fields 0 with
        | char_val c =>
          simp only [var_t.get_obj, Res.fault_bind]
          constructor
          · intro h; exact absurd h (by simp)
          · rintro ⟨sr1, so1, rfl, hso, h0⟩
            rw [hstr] at hso
            cases hso
            rw [hs0] at h0
            exact absurd h0 (by simp)
        | obj q =>
          cases q with
          | none =>
            simp only [var_t.get_obj, Res.ok_bind, true_iff]
            exact ⟨sr, str_obj, rfl, hstr, hs0⟩
          | some ar =>
            simp only [var_t.get_obj, Res.ok_bind]
            constructor
            · intro h
              exfalso
              cases harr : heap ar with
              | none => simp [harr] at h
              | some arr_obj =>
                simp only [harr, Res.ok_bind] at h
                split at h
                · exact get_excp_str_after_malloc arr_obj _ h
                · exact absurd h (by simp)
            · rintro ⟨sr1, so1, rfl, hso, h0⟩
              rw [hstr] at hso
              cases hso
              rw [hs0] at h0
              exact absurd h0 (by simp)

/-- Witness of C12: the exception at reference 40 has a message string without
character array. -/
theorem get_excp_str_absent_witness :
    get_excp_str demoEnv emptyMsgHeap (some 40) = .ok none :=
  (get_excp_str_absent demoEnv emptyMsgHeap 40
    ⟨5, fun i => if i = 0 then var_t.obj (some 41) else var_t.obj none, 0⟩ rfl).mpr
    (Or.inr ⟨41, ⟨8, fun _ => var_t.obj none, 0⟩, rfl, rfl, rfl⟩)

/-- C13, counterexample: with `malloc` returning `NULL` no buffer is returned, and
the character value 8364 of a one-character message is stored as the byte 172. -/
theorem get_excp_str_buffer_limits :
    get_excp_str demoEnvNoMem msgHeap (some 20) = .fault ∧
    get_excp_str demoEnv euroHeap (some 30) = .ok (some [172, 0]) :=
  ⟨rfl, rfl⟩

/-- C13, amended: for an exception object whose field 0 references a string object
whose field 0 references an array of `n` character values `cs i`, and when
`malloc` provides the `n + 1` bytes, `get_excp_str` returns `n + 1` bytes: byte
`i` is `cs i` modulo 256, hence `cs i` itself when it is below 256, and byte `n`
is 0. -/
theorem get_excp_str_copies (E : Env) (heap : Heap) (r sr ar : Nat)
    (obj str_obj arr_obj : native_obj_t) (cs : Nat → Nat)
    (hobj : heap r = some obj) (hf0 : obj.fields 0 = var_t.obj (some sr))
    (hstr : heap sr = some str_obj) (hs0 : str_obj.fields 0 = var_t.obj (some ar))
    (harr : heap ar = some arr_obj)
    (hchars : ∀ i, i < arr_obj.array_length → arr_obj.fields i = var_t.char_val (cs i))
    (hmalloc : E.malloc (arr_obj.array_length + 1) = true) :
    ∃ bytes, get_excp_str E heap (some r) = .ok (some bytes) ∧
      bytes.length = arr_obj.array_length + 1 ∧
      (∀ i, i < arr_obj.array_length → bytes[i]? = some (cs i % 256)) ∧
      (∀ i, i < arr_obj.array_length → cs i < 256 → bytes[i]? = some (cs i)) ∧
      bytes[arr_obj.array_length]? = some 0 := by
  have hbytes : ∀ i, i < arr_obj.array_length →
      (((List.range arr_obj.array_length).map fun i => cs i % 256) ++ [0])[i]?
        = some (cs i % 256) := by
    intro i hi
    rw [List.getElem?_append_left (by simpa using hi)]
    simp [hi]
  refine ⟨((List.range arr_obj.array_length).map fun i => cs i % 256) ++ [0], ?_, by simp,
    hbytes, ?_, ?_⟩
  · unfold get_excp_str
    simp only [deref, Res.ok_bind, hobj, hf0, var_t.get_obj, hstr, hs0, harr, hmalloc, if_true,
      copy_chars_of_chars arr_obj cs _ hchars]
  · intro i hi hlt
    rw [hbytes i hi, Nat.mod_eq_of_lt hlt]
  · rw [List.getElem?_append_right (by simp)]
    simp

/-- Witness of C13: the message `/ by zero`, nine characters, gives ten bytes. -/
theorem get_excp_str_copies_witness :
    ∃ bytes, get_excp_str demoEnv msgHeap (some 20) = .ok (some bytes) ∧
      bytes.length = 9 + 1 ∧
      (∀ i, i < 9 → bytes[i]? = some (("/ by zero".data.getD i ' ').toNat % 256)) ∧
      (∀ i, i < 9 → ("/ by zero".data.getD i ' ').toNat < 256 →
        bytes[i]? = some ("/ by zero".data.getD i ' ').toNat) ∧
      bytes[9]? = some 0 :=
  get_excp_str_copies demoEnv msgHeap 20 21 22
    ⟨5, fun i => if i = 0 then var_t.obj (some 21) else var_t.obj none, 0⟩
    ⟨8, fun i => if i = 0 then var_t.obj (some 22) else var_t.obj none, 0⟩
    ⟨9, fun i => var_t.char_val ("/ by zero".data.getD i ' ').toNat, 9⟩
    (fun i => ("/ by zero".data.getD i ' ').toNat)
    rfl rfl rfl rfl rfl (fun _ _ => rfl) rfl

/-- `strstr` finds its needle exactly when the needle is a block of consecutive
characters of the haystack. -/
theorem strstr_isSome (needle : List Char) :
    ∀ hay : List Char, (strstr hay needle).isSome = true ↔ needle <:+: hay := by
  intro hay
  induction hay with
  | nil =>
    cases needle with
    | nil => simp [strstr]
    | cons a l => simp [strstr, List.isPrefixOf]
  | cons c hay ih =>
    rw [strstr]
    by_cases hp : needle.isPrefixOf (c :: hay) = true
    · simp only [hp, if_true, Option.isSome_some, true_iff]
      exact (List.isPrefixOf_iff_prefix.mp hp).isInfix
    · simp only [hp, Bool.false_eq_true, if_false, ih]
      rw [List.infix_cons_iff]
      constructor
      · exact Or.inr
      · rintro (h | h)
        · exact absurd (List.isPrefixOf_iff_prefix.mpr h) hp
        · exact h

/-- The loop of `hb_excp_str_to_type` over a table `tbl` whose first entry has
index `i`: it returns the index of the first entry that contains `str`, or -1
when no entry does. -/
theorem excp_str_loop_first (str : String) :
    ∀ (tbl : List String) (i : Nat),
      (∃ (k : Nat) (nm : String), tbl[k]? = some nm ∧ excp_str_loop str tbl i = ((i + k : Nat) : Int) ∧
        str.data <:+: nm.data ∧
        ∀ (j : Nat) (nm1 : String), j < k → tbl[j]? = some nm1 → ¬ str.data <:+: nm1.data) ∨
      (excp_str_loop str tbl i = -1 ∧ ∀ (j : Nat) (nm1 : String), tbl[j]? = some nm1 → ¬ str.data <:+: nm1.data) := by
  intro tbl
  induction tbl with
  | nil => intro i; exact Or.inr ⟨rfl, by simp⟩
  | cons e rest ih =>
    intro i
    rw [excp_str_loop]
    by_cases hfound : (strstr e.data str.data).isSome = true
    · refine Or.inl ⟨0, e, by simp, by simp [hfound], (strstr_isSome _ _).mp hfound, ?_⟩
      intro j nm1 hj
      omega
    · have hnot : ¬ str.data <:+: e.data := fun h => hfound ((strstr_isSome _ _).mpr h)
      rw [if_neg hfound]
      rcases ih (i + 1) with ⟨k, nm, hk, hres, hin, hmin⟩ | ⟨hres, hall⟩
      · refine Or.inl ⟨k + 1, nm, by simpa using hk, ?_, hin, ?_⟩
        · rw [hres]
          congr 1
          omega
        · intro j nm1 hj hnm1
          cases j with
          | zero =>
            simp only [List.getElem?_cons_zero, Option.some.injEq] at hnm1
            subst hnm1
            exact hnot
          | succ j =>
            exact hmin j nm1 (by omega) (by simpa using hnm1)
      · refine Or.inr ⟨hres, ?_⟩
        intro j nm1 hnm1
        cases j with
        | zero =>
          simp only [List.getElem?_cons_zero, Option.some.injEq] at hnm1
          subst hnm1
          exact hnot
        | succ j => exact hall j nm1 (by simpa using hnm1)

/-- C14: `hb_excp_str_to_type(s)` is the smallest index of an entry of `excp_strs`
that contains `s` as a block of consecutive characters, and it is -1 exactly
when no entry contains `s`. -/
theorem hb_excp_str_to_type_first_match (s : String) :
    ((∃ (i : Nat) (nm : String), i < 16 ∧ excp_strs[i]? = some nm ∧ hb_excp_str_to_type s = (i : Int) ∧
        s.data <:+: nm.data ∧
        ∀ (j : Nat) (nm1 : String), j < i → excp_strs[j]? = some nm1 → ¬ s.data <:+: nm1.data) ∨
      (hb_excp_str_to_type s = -1 ∧
        ∀ (j : Nat) (nm1 : String), excp_strs[j]? = some nm1 → ¬ s.data <:+: nm1.data)) ∧
    (hb_excp_str_to_type s = -1 ↔
      ∀ (j : Nat) (nm1 : String), excp_strs[j]? = some nm1 → ¬ s.data <:+: nm1.data) := by
  have hlen : excp_strs.length = 16 := rfl
  have key := excp_str_loop_first s excp_strs 0
  simp only [Nat.zero_add] at key
  constructor
  · rcases key with ⟨k, nm, hk, hres, hin, hmin⟩ | h
    · refine Or.inl ⟨k, nm, ?_, hk, hres, hin, hmin⟩
      have := (List.getElem?_eq_some_iff.mp hk).1
      omega
    · exact Or.inr h
  · constructor
    · intro hneg
      rcases key with ⟨k, nm, hk, hres, hin, hmin⟩ | h
      · unfold hb_excp_str_to_type at hneg
        rw [hres] at hneg
        omega
      · exact h.2
    · intro hall
      rcases key with ⟨k, nm, hk, hres, hin, hmin⟩ | h
      · exact absurd hin (hall k nm hk)
      · exact h.1

set_option maxRecDepth 100000 in
/-- C18: over the registry, `hb_excp_str_to_type` applied to the entries of
`excp_strs` in order returns 0, 1, ..., 15. -/
theorem hb_excp_str_to_type_round_trip :
    excp_strs.length = 16 ∧
    excp_strs.map hb_excp_str_to_type = (List.range 16).map Int.ofNat := by
  decide

/-- C15 (the code departs from it): line 80 reads `cls->this` before line 82 tests
`cls`.  When the class loader returns `NULL`, as it does in `demoEnv` for
`FileNotFoundException`, `hb_create_obj` dereferences `NULL` instead of
returning `NULL`. -/
theorem hb_create_obj_loader_failure :
    (∀ (E : Env) (heap : Heap) (nm : String),
      hb_create_obj (withFailingLoader E) heap nm = .fault) ∧
    demoEnv.hb_get_or_load_class "FileNotFoundException" = none ∧
    (∀ heap : Heap, hb_create_obj demoEnv heap "FileNotFoundException" = .fault) :=
  ⟨fun _ _ _ => rfl, rfl, fun _ => rfl⟩

/-- C16 (the code departs from it): when `hb_create_obj` yields `NULL`, here because
the allocator fails, `hb_throw_and_create_excp` calls `hb_invoke_ctor` on the
`NULL` reference and hands `NULL` to `hb_throw_exception`, whatever the
collaborators are; with the collaborators of `demoEnv` the call ends in the
`NULL` dereference of line 249, not in `exit`. -/
theorem hb_throw_and_create_excp_missing_object :
    (∀ (E : Env) (heap : Heap) (nm : String),
      hb_create_obj (withFailingAlloc E) heap nm = .ok (none, heap)) ∧
    (∀ (E : Env) (fuel : Nat) (s : State),
      hb_throw_and_create_excp (withFailingAlloc E) (fuel + 1) s 7 =
        match E.hb_invoke_ctor s none with
        | .ok s1 => hb_throw_exception (withFailingAlloc E) fuel s1 none
        | .fault => .fault
        | .nofuel => .nofuel) ∧
    (∀ fuel : Nat,
      hb_throw_and_create_excp demoEnvNoAlloc (fuel + 2) ⟨thUnhandled, demoHeap⟩ 7 = .fault) :=
  ⟨fun _ _ _ => rfl, fun _ _ _ => rfl, fun _ => rfl⟩

/-- C17, counterexample: line 108 compares the code with nothing.  For the code 16,
with the pointer after the table pointing to the text
`java/lang/ArithmeticException`, a class name is produced, an object of that
class is created at reference 100 and the exception is dispatched to the
handler at pc 50. -/
theorem hb_throw_and_create_excp_beyond_table :
    excp_strs.length = 16 ∧
    excp_strs_read demoEnvBeyond 16 = .ok "java/lang/ArithmeticException" ∧
    (demoHeap 100).isSome = false ∧
    ∃ f heap1, hb_throw_and_create_excp demoEnvBeyond 2 ⟨thScenario, demoHeap⟩ 16
        = .returned ⟨⟨"main", [f]⟩, heap1⟩ ∧
      (heap1 100).isSome = true ∧
      f.pc = 50 ∧ f.sp = 1 ∧ f.oprs 0 = var_t.obj (some 100) :=
  ⟨rfl, rfl, rfl, _, _, rfl, rfl, rfl, rfl, rfl⟩

/-- C17, amended: for a code below 16 the class name that
`hb_throw_and_create_excp` looks up and hands to `hb_create_obj` is the entry of
`excp_strs` at that index.  A `u1` code of 16 or more is not checked: the
function goes on in the same way with what the read finds after the table. -/
theorem hb_throw_and_create_excp_lookup (E : Env) (fuel : Nat) (s : State) (type : Nat) :
    (type < 16 → ∃ nm, excp_strs[type]? = some nm ∧
      hb_throw_and_create_excp E (fuel + 1) s type =
        match hb_create_obj E s.heap nm with
        | .ok (ref, heap1) =>
          match E.hb_invoke_ctor { s with heap := heap1 } ref with
          | .ok s1 => hb_throw_exception E fuel s1 ref
          | .fault => .fault
          | .nofuel => .nofuel
        | .fault => .fault
        | .nofuel => .nofuel) ∧
    (16 ≤ type → type < 256 →
      hb_throw_and_create_excp E (fuel + 1) s type =
        match E.excp_strs_beyond type with
        | .ok nm =>
          match hb_create_obj E s.heap nm with
          | .ok (ref, heap1) =>
            match E.hb_invoke_ctor { s with heap := heap1 } ref with
            | .ok s1 => hb_throw_exception E fuel s1 ref
            | .fault => .fault
            | .nofuel => .nofuel
          | .fault => .fault
          | .nofuel => .nofuel
        | .fault => .fault
        | .nofuel => .nofuel) := by
  have hlen : excp_strs.length = 16 := rfl
  constructor
  · intro h
    have hlt : type < excp_strs.length := by omega
    refine ⟨excp_strs[type], List.getElem?_eq_getElem hlt, ?_⟩
    rw [hb_throw_and_create_excp]
    simp only [excp_strs_read, List.getElem?_eq_getElem hlt]
  · intro h _
    have hnone : excp_strs[type]? = none := List.getElem?_eq_none (by omega)
    rw [hb_throw_and_create_excp]
    simp only [excp_strs_read, hnone]

/-- Witness of C17: the code 7 looks up `java/lang/ArithmeticException`. -/
theorem hb_throw_and_create_excp_lookup_witness :
    ∃ nm, excp_strs[7]? = some nm ∧ nm = "java/lang/ArithmeticException" ∧
      hb_throw_and_create_excp demoEnv 1 ⟨thScenario, demoHeap⟩ 7 =
        match hb_create_obj demoEnv demoHeap nm with
        | .ok (ref, heap1) =>
          match demoEnv.hb_invoke_ctor ⟨thScenario, heap1⟩ ref with
          | .ok s1 => hb_throw_exception demoEnv 0 s1 ref
          | .fault => .fault
          | .nofuel => .nofuel
        | .fault => .fault
        | .nofuel => .nofuel := by
  obtain ⟨nm, hnm, hthrow⟩ :=
    (hb_throw_and_create_excp_lookup demoEnv 0 ⟨thScenario, demoHeap⟩ 7).1 (by decide)
  have h7 : excp_strs[7]? = some "java/lang/ArithmeticException" := rfl
  rw [h7] at hnm
  exact ⟨nm, by rw [h7, ← Option.some.inj hnm], (Option.some.inj hnm).symm, hthrow⟩

/-- C19: when `hb_throw_exception` returns, the frames it leaves are the frames it
was given with the `k` topmost removed, the frames beneath the new current frame
untouched; the new current frame is the frame then on top with its class, its
exception table and its operand slots of index 1 and more unchanged; the
thread's name and the heap are unchanged. -/
theorem hb_throw_exception_frame_effect (E : Env) (fuel : Nat) (s s1 : State)
    (eref : Option Nat)
    (hret : hb_throw_exception E fuel s eref = .returned s1) :
    ∃ k f rest f1, k < s.cur_thread.frames.length ∧
      s.cur_thread.frames.drop k = f :: rest ∧
      s1.cur_thread.frames = f1 :: rest ∧
      f1.cls = f.cls ∧ f1.excp_table = f.excp_table ∧
      (∀ i, 1 ≤ i → f1.oprs i = f.oprs i) ∧
      s1.cur_thread.name = s.cur_thread.name ∧ s1.heap = s.heap := by
  cases fuel with
  | zero => simp [hb_throw_exception] at hret
  | succ fuel =>
    cases eref with
    | none => simp [hb_throw_exception] at hret
    | some r =>
      cases hheap : s.heap r with
      | none =>
        rw [hb_throw_exception] at hret
        simp [hheap] at hret
      | some o =>
        rw [hb_throw_exception] at hret
        simp only [hheap, Option.isNone_some] at hret
        cases hfind : find_exception_table E (fuel + 1) s.cur_thread o.cls with
        | fault => simp [hfind] at hret
        | nofuel => simp [hfind] at hret
        | ok res =>
          obtain ⟨n, th⟩ := res
          obtain ⟨hname, hcase⟩ := find_exception_table_shape E (fuel + 1) o.cls n _ th hfind
          rcases hcase with ⟨h0, -⟩ | ⟨h1, j, f, rest, t, hdrop, -, hfr⟩
          · subst h0
            simp only [hfind] at hret
            cases hm : get_excp_str E s.heap (some r) <;> simp [hm] at hret
          · subst h1
            simp only [hfind, hfr] at hret
            have hs1 := Outcome.returned.inj hret
            have hj : j < s.cur_thread.frames.length := by
              by_contra hge
              rw [List.drop_eq_nil_of_le (by omega)] at hdrop
              exact absurd hdrop (by simp)
            refine ⟨j, f, rest,
              { f with pc := t.handler_pc,
                       oprs := Function.update f.oprs 0 (var_t.obj (some r)), sp := 1 },
              hj, hdrop, by rw [← hs1], rfl, rfl, ?_, ?_, ?_⟩
            · intro i hi
              have hne : i ≠ 0 := by omega
              simp [Function.update, hne]
            · rw [← hs1]
              exact hname
            · rw [← hs1]

/-- Witness of C19: the callee without handler is removed and its caller becomes
the handler frame, with its class, its table and its slots from index 1 on as
before. -/
theorem hb_throw_exception_frame_effect_witness :
    ∃ k f rest f1, k < thCallee.frames.length ∧
      thCallee.frames.drop k = f :: rest ∧
      [({ demoFrame 100 [⟨10, 20, 50, 1⟩] with
          pc := 50, oprs := Function.update (fun _ => var_t.char_val 9) 0 (var_t.obj (some 10)),
          sp := 1 } : stack_frame_t)] = f1 :: rest ∧
      f1.cls = f.cls ∧ f1.excp_table = f.excp_table ∧
      (∀ i, 1 ≤ i → f1.oprs i = f.oprs i) ∧
      "main" = thCallee.name ∧ demoHeap = demoHeap :=
  hb_throw_exception_frame_effect demoEnv 1 ⟨thCallee, demoHeap⟩
    ⟨⟨"main", [{ demoFrame 100 [⟨10, 20, 50, 1⟩] with
        pc := 50, oprs := Function.update (fun _ => var_t.char_val 9) 0 (var_t.obj (some 10)),
        sp := 1 }]⟩, demoHeap⟩
    (some 10) rfl

/-- With the reads of lines 176-177 done, the catch type is the name of `x` exactly
when `hb_get_class_name` gives the resolved string for `x`. -/
theorem catch_name_is_iff (E : Env) (th : jthread_t) (t : excp_table_t) (x : Option Nat)
    (f : stack_frame_t) (c : CONSTANT_Class_info_t) (tname : String)
    (hf : th.cur_frame = some f)
    (hc : E.const_pool f.cls t.catch_type = some c)
    (ht : E.hb_get_const_str c.name_idx f.cls = .ok tname) :
    catch_name_is E th t x ↔ E.hb_get_class_name x = .ok tname := by
  constructor
  · rintro ⟨f1, c1, nm, hf1, hc1, ht1, hn1⟩
    rw [hf] at hf1
    cases hf1
    rw [hc] at hc1
    cases hc1
    rw [ht] at ht1
    cases ht1
    exact hn1
  · intro h
    exact ⟨f, c, tname, hf, hc, ht, h⟩

/-- The ancestor loop consults `hb_get_super_class` at the thrown class only, and
`hb_get_class_name` at that superclass only. -/
theorem super_loop_congr (E E1 : Env) (cls : Nat) (tname : String)
    (hs : E1.hb_get_super_class cls = E.hb_get_super_class cls)
    (hn : E1.hb_get_class_name (E.hb_get_super_class cls)
      = E.hb_get_class_name (E.hb_get_super_class cls)) :
    ∀ (fuel : Nat) (sup : Option Nat) (cname : String),
      super_loop E1 cls tname fuel sup cname = super_loop E cls tname fuel sup cname := by
  intro fuel
  induction fuel with
  | zero =>
    intro sup cname
    cases sup <;> rfl
  | succ n ih =>
    intro sup cname
    cases sup with
    | none => rfl
    | some a =>
      rw [super_loop, super_loop]
      by_cases hc : cname = tname
      · simp [hc]
      · simp only [hc, if_false, hs, hn]
        cases E.hb_get_class_name (E.hb_get_super_class cls) with
        | ok cname1 => exact ih _ _
        | fault => rfl
        | nofuel => rfl

/-- The matcher consults the collaborators at the constant pool, at the thrown class
and at its immediate superclass only. -/
theorem check_congr (E E1 : Env) (fuel : Nat) (th : jthread_t) (t : excp_table_t) (cls curpc : Nat)
    (hcp : E1.const_pool = E.const_pool) (hcs : E1.hb_get_const_str = E.hb_get_const_str)
    (hn0 : E1.hb_get_class_name (some cls) = E.hb_get_class_name (some cls))
    (hs : E1.hb_get_super_class cls = E.hb_get_super_class cls)
    (hn : E1.hb_get_class_name (E.hb_get_super_class cls)
      = E.hb_get_class_name (E.hb_get_super_class cls)) :
    check_catchtype_and_class E1 fuel th t cls curpc
      = check_catchtype_and_class E fuel th t cls curpc := by
  unfold check_catchtype_and_class
  simp only [hcp, hcs, hn0, hs, hn, super_loop_congr E E1 cls _ hs hn]

/-- C20: when `check_catchtype_and_class` returns, it returns 0 or 1, and 1 exactly
when the pc is in the range of the entry and the catch type is 0, or is the name
of the thrown class, or is the name of its immediate superclass.  The result is
the same under any collaborators that agree on the constant pool, on the name of
the thrown class, and on the immediate superclass and its name: further
ancestors play no part. -/
theorem check_catchtype_and_class_result (E : Env) (fuel : Nat) (th : jthread_t)
    (t : excp_table_t) (cls curpc r : Nat)
    (hret : check_catchtype_and_class E fuel th t cls curpc = .ok r) :
    (r = 0 ∨ r = 1) ∧
    (r = 1 ↔ (t.start_pc ≤ curpc ∧ curpc < t.end_pc) ∧
      (t.catch_type = 0 ∨ catch_name_is E th t (some cls) ∨
        ∃ sup, E.hb_get_super_class cls = some sup ∧ catch_name_is E th t (some sup))) ∧
    (∀ E1 : Env, E1.const_pool = E.const_pool → E1.hb_get_const_str = E.hb_get_const_str →
      E1.hb_get_class_name (some cls) = E.hb_get_class_name (some cls) →
      E1.hb_get_super_class cls = E.hb_get_super_class cls →
      E1.hb_get_class_name (E.hb_get_super_class cls)
        = E.hb_get_class_name (E.hb_get_super_class cls) →
      check_catchtype_and_class E1 fuel th t cls curpc = .ok r) := by
  have key : (r = 0 ∨ r = 1) ∧
      (r = 1 ↔ (t.start_pc ≤ curpc ∧ curpc < t.end_pc) ∧
        (t.catch_type = 0 ∨ catch_name_is E th t (some cls) ∨
          ∃ sup, E.hb_get_super_class cls = some sup ∧ catch_name_is E th t (some sup))) := by
    by_cases hr : t.start_pc ≤ curpc ∧ curpc < t.end_pc
    swap
    · rw [check_of_not_in_range E fuel th t cls curpc hr] at hret
      cases hret
      exact ⟨Or.inl rfl, iff_of_false (by decide) (fun h => hr h.1)⟩
    cases hf : th.cur_frame with
    | none => simp [check_catchtype_and_class, hr, hf, deref] at hret
    | some f =>
      cases hc : E.const_pool f.cls t.catch_type with
      | none => simp [check_catchtype_and_class, hr, hf, hc, deref] at hret
      | some c =>
        cases ht : E.hb_get_const_str c.name_idx f.cls with
        | fault => simp [check_catchtype_and_class, hr, hf, hc, ht, deref] at hret
        | nofuel => simp [check_catchtype_and_class, hr, hf, hc, ht, deref] at hret
        | ok tname =>
          cases hn : E.hb_get_class_name (some cls) with
          | fault => simp [check_catchtype_and_class, hr, hf, hc, ht, hn, deref] at hret
          | nofuel => simp [check_catchtype_and_class, hr, hf, hc, ht, hn, deref] at hret
          | ok cname =>
            rw [check_in_range E fuel th t cls curpc f c tname cname hr hf hc ht hn] at hret
            have hown : catch_name_is E th t (some cls) ↔ cname = tname := by
              rw [catch_name_is_iff E th t _ f c tname hf hc ht, hn]
              exact ⟨fun h => Res.ok.inj h, fun h => by rw [h]⟩
            by_cases hcond : t.catch_type = 0 ∨ cname = tname
            · rw [if_pos hcond] at hret
              cases hret
              refine ⟨Or.inr rfl, iff_of_true rfl ⟨hr, ?_⟩⟩
              rcases hcond with h | h
              · exact Or.inl h
              · exact Or.inr (Or.inl (hown.mpr h))
            · rw [if_neg hcond] at hret
              have hct : t.catch_type ≠ 0 := fun h => hcond (Or.inl h)
              have hne : cname ≠ tname := fun h => hcond (Or.inr h)
              cases hs : E.hb_get_super_class cls with
              | none =>
                rw [hs] at hret
                cases hn0 : E.hb_get_class_name none with
                | fault => simp [hn0] at hret
                | nofuel => simp [hn0] at hret
                | ok cname1 =>
                  simp only [hn0, Res.ok_bind] at hret
                  have h0 : r = 0 := by
                    cases fuel <;> simp [super_loop] at hret <;> exact hret.symm
                  subst h0
                  refine ⟨Or.inl rfl, iff_of_false (by decide) ?_⟩
                  rintro ⟨-, h | h | ⟨sup, hsup, -⟩⟩
                  · exact hct h
                  · exact hne (hown.mp h)
                  · exact absurd hsup (by simp)
              | some sup =>
                rw [hs] at hret
                cases hsn : E.hb_get_class_name (some sup) with
                | fault => simp [hsn] at hret
                | nofuel => simp [hsn] at hret
                | ok sname =>
                  simp only [hsn, Res.ok_bind] at hret
                  by_cases hsame : sname = tname
                  · cases fuel with
                    | zero => simp [super_loop] at hret
                    | succ n =>
                      rw [super_loop, if_pos hsame] at hret
                      cases hret
                      refine ⟨Or.inr rfl, iff_of_true rfl ⟨hr, Or.inr (Or.inr ⟨sup, rfl, ?_⟩)⟩⟩
                      rw [catch_name_is_iff E th t _ f c tname hf hc ht, hsn, hsame]
                  · rw [super_loop_no_progress E cls tname sname sup hs hsn hsame fuel] at hret
                    exact absurd hret (by simp)
  exact ⟨key.1, key.2, fun E1 hcp hcs hn0 hs hn => by
    rw [check_congr E E1 fuel th t cls curpc hcp hcs hn0 hs hn, hret]⟩

/-- Witness of C20: a thrown `java/lang/Exception` against an in-range entry that
catches `java/lang/Throwable`, its immediate superclass. -/
theorem check_catchtype_and_class_result_witness :
    (10 ≤ 15 ∧ 15 < 20) ∧
      ((3 : Nat) = 0 ∨ catch_name_is demoEnv thScenario ⟨10, 20, 50, 3⟩ (some 3) ∨
        ∃ sup, demoEnv.hb_get_super_class 3 = some sup ∧
          catch_name_is demoEnv thScenario ⟨10, 20, 50, 3⟩ (some sup)) :=
  (check_catchtype_and_class_result demoEnv 1 thScenario ⟨10, 20, 50, 3⟩ 3 15 1 rfl).2.1.mp rfl

/-! ## Further properties of the code -/

/-- The ancestor loop in general: in range, for a typed entry whose name is neither
that of the thrown class nor that of its immediate superclass, the matcher never
returns once the thrown class has a superclass. -/
theorem check_catchtype_and_class_no_progress (E : Env) (th : jthread_t) (t : excp_table_t)
    (cls curpc sup : Nat) (f : stack_frame_t) (c : CONSTANT_Class_info_t)
    (tname cname sname : String)
    (hr : t.start_pc ≤ curpc ∧ curpc < t.end_pc)
    (hf : th.cur_frame = some f)
    (hc : E.const_pool f.cls t.catch_type = some c)
    (ht : E.hb_get_const_str c.name_idx f.cls = .ok tname)
    (hn : E.hb_get_class_name (some cls) = .ok cname)
    (hct : t.catch_type ≠ 0) (hne : cname ≠ tname)
    (hs : E.hb_get_super_class cls = some sup)
    (hsn : E.hb_get_class_name (some sup) = .ok sname)
    (hsne : sname ≠ tname) :
    ∀ fuel, check_catchtype_and_class E fuel th t cls curpc = .nofuel := by
  intro fuel
  rw [check_in_range E fuel th t cls curpc f c tname cname hr hf hc ht hn]
  rw [if_neg (by simp [hct, hne])]
  simp only [hs, hsn, Res.ok_bind]
  exact super_loop_no_progress E cls tname sname sup hs hsn hsne fuel

/-- Instance of the loop without progress: a `java/lang/NullPointerException` thrown
inside a try range that catches `java/lang/ArithmeticException`. -/
theorem check_catchtype_and_class_no_progress_witness :
    check_catchtype_and_class demoEnv 1000 thScenario ⟨10, 20, 50, 1⟩ 6 15 = .nofuel :=
  check_catchtype_and_class_no_progress demoEnv thScenario ⟨10, 20, 50, 1⟩ 6 15 4
    (demoFrame 15 [⟨10, 20, 50, 1⟩]) ⟨2⟩ "java/lang/ArithmeticException"
    "java/lang/NullPointerException" "java/lang/RuntimeException"
    (by decide) rfl rfl rfl rfl (by decide) (by decide) rfl rfl (by decide) 1000

/-- When the matcher accepts the first entry of the current frame at that frame's
pc, `find_exception_table` gives the frame the handler of that entry, returns 1
and pops nothing. -/
theorem find_exception_table_first_entry_match (E : Env) (fuel cls r : Nat) (th : jthread_t)
    (f : stack_frame_t) (rest : List stack_frame_t) (t : excp_table_t)
    (hfr : th.frames = f :: rest) (ht : f.excp_table.head? = some t)
    (hchk : check_catchtype_and_class E fuel th t cls f.pc = .ok r) (hr : r ≠ 0) :
    find_exception_table E fuel th cls
      = .ok (1, { th with frames := { f with pc := t.handler_pc } :: rest }) := by
  have hcur : th.cur_frame = some f := by
    simp [jthread_t.cur_frame, hfr]
  unfold find_exception_table
  rw [hcur]
  exact find_loop_hit E fuel cls f.pc th.frames.length r th f rest t hfr ht hchk hr

/-- Instance: the scenario of §8, whose frame ends at pc 50. -/
theorem find_exception_table_first_entry_match_witness :
    find_exception_table demoEnv 0 thScenario 5
      = .ok (1, ⟨"main", [{ demoFrame 15 [⟨10, 20, 50, 1⟩] with pc := 50 }]⟩) :=
  find_exception_table_first_entry_match demoEnv 0 5 1 thScenario
    (demoFrame 15 [⟨10, 20, 50, 1⟩]) [] ⟨10, 20, 50, 1⟩ rfl rfl rfl (by decide)

/-- Once the class is loaded, `hb_create_obj` returns `NULL` with the heap untouched
when resolution fails, and otherwise returns what the allocator returns: a
reference, or `NULL` when allocation fails. -/
theorem hb_create_obj_after_load (E : Env) (heap : Heap) (nm : String) (cls : Nat)
    (hload : E.hb_get_or_load_class nm = some cls) :
    hb_create_obj E heap nm =
      match E.hb_resolve_class (E.class_this cls) cls with
      | none => .ok (none, heap)
      | some cls1 => .ok (E.gc_obj_alloc heap cls1) := by
  unfold hb_create_obj
  simp only [hload, deref, Res.ok_bind]
  cases E.hb_resolve_class (E.class_this cls) cls with
  | none => rfl
  | some cls1 =>
    simp only
    rcases hres : E.gc_obj_alloc heap cls1 with ⟨ref, heap1⟩
    cases ref <;> rfl

/-- Instance: with the allocator failing, `java/lang/ArithmeticException` loads and
resolves and `hb_create_obj` returns `NULL`, the heap unchanged. -/
theorem hb_create_obj_after_load_witness :
    hb_create_obj demoEnvNoAlloc demoHeap "java/lang/ArithmeticException"
      = .ok (none, demoHeap) :=
  hb_create_obj_after_load demoEnvNoAlloc demoHeap "java/lang/ArithmeticException" 5 rfl

/-- On a thread with a current frame `f0`, provided the calls of the matcher that
the unwinder makes return (the call after `j` pops, on the first entry of the
frame then current and at the pc of `f0`, is made when the calls before it
reported no match), `find_exception_table` returns 0 or 1 having popped `j`
frames, `j` not above the depth; a pass of its loop in which the call reports
no match pops exactly the current frame; and when no call reports a match it
returns 0 with every frame popped. -/
theorem find_exception_table_returns (E : Env) (fuel cls : Nat) (th : jthread_t)
    (f0 : stack_frame_t)
    (hcur : th.cur_frame = some f0)
    (hret : ∀ j f t,
      (∀ i fi ti, i < j → (hb_pop_frame^[i] th).cur_frame = some fi →
        fi.excp_table.head? = some ti →
        check_catchtype_and_class E fuel (hb_pop_frame^[i] th) ti cls f0.pc = .ok 0) →
      (hb_pop_frame^[j] th).cur_frame = some f → f.excp_table.head? = some t →
      ∃ r, check_catchtype_and_class E fuel (hb_pop_frame^[j] th) t cls f0.pc = .ok r) :
    (∃ j r th1, j ≤ th.frames.length ∧
      find_exception_table E fuel th cls = .ok (r, th1) ∧
      th1.frames.length + j = th.frames.length ∧
      (r = 0 ∨ r = 1) ∧ (r = 0 → j = th.frames.length ∧ th1 = hb_pop_frame^[j] th)) ∧
    (∀ k th2 f, th2.cur_frame = some f →
      (∀ t, f.excp_table.head? = some t →
        check_catchtype_and_class E fuel th2 t cls f0.pc = .ok 0) →
      find_loop E fuel cls f0.pc (k + 1) th2 = find_loop E fuel cls f0.pc k (hb_pop_frame th2) ∧
      (hb_pop_frame th2).frames.length + 1 = th2.frames.length) ∧
    ((∀ j f t, (hb_pop_frame^[j] th).cur_frame = some f → f.excp_table.head? = some t →
        check_catchtype_and_class E fuel (hb_pop_frame^[j] th) t cls f0.pc = .ok 0) →
      find_exception_table E fuel th cls = .ok (0, hb_pop_frame^[th.frames.length] th) ∧
      (hb_pop_frame^[th.frames.length] th).frames = []) := by
  have hfind : find_exception_table E fuel th cls
      = find_loop E fuel cls f0.pc (th.frames.length + 1) th := by
    unfold find_exception_table
    rw [hcur]
    rfl
  obtain ⟨r, th1, hres, hone⟩ :=
    find_loop_returns E fuel cls f0.pc (th.frames.length + 1) th (Nat.lt_succ_self _) hret
  obtain ⟨j, hj, hcase⟩ := find_loop_shape E fuel cls f0.pc _ th r th1 hres
  refine ⟨⟨j, r, th1, hj, hfind.trans hres, ?_, ?_, ?_⟩, ?_, ?_⟩
  · rcases hcase with ⟨-, hlen, heq⟩ | ⟨-, f, rest, t, hfr, -, heq⟩
    · rw [heq, iterate_pop_frames, hlen]
      simp
    · have hd := iterate_pop_frames th j
      rw [hfr] at hd
      have hl : (f :: rest).length = th.frames.length - j := by
        rw [hd, List.length_drop]
      rw [heq]
      simp only [List.length_cons] at hl ⊢
      omega
  · rcases hcase with ⟨h0, -, -⟩ | ⟨h1, -⟩
    · exact Or.inl h0
    · exact Or.inr h1
  · intro h0
    rcases hcase with ⟨-, hlen, heq⟩ | ⟨h1, -⟩
    · exact ⟨hlen, heq⟩
    · omega
  · intro k th2 f hf hzero
    refine ⟨find_loop_pop E fuel cls f0.pc k th2 f hf hzero, ?_⟩
    obtain ⟨name, frames⟩ := th2
    cases frames with
    | nil => simp [jthread_t.cur_frame] at hf
    | cons g rest => simp [hb_pop_frame]
  · intro hzero
    have hr0 : r = 0 := by
      rcases hcase with ⟨h0, -, -⟩ | ⟨h1, -⟩
      · exact h0
      · obtain ⟨j1, f1, t1, r1, hf1, ht1, hne, hchk⟩ := hone h1
        rw [hzero j1 f1 t1 hf1 ht1] at hchk
        simp only [Res.ok.injEq] at hchk
        omega
    rcases hcase with ⟨-, hlen, heq⟩ | ⟨h1, -⟩
    · subst hr0
      refine ⟨?_, ?_⟩
      · rw [hfind, hres, heq, hlen]
      · rw [iterate_pop_frames]
        simp
    · omega

/-- Instance: in `thHandledOnTop` the matcher accepts the entry of the top frame;
the entry of the frame beneath, on which the matcher would never return, is
never tested, and the unwinder returns. -/
theorem find_exception_table_returns_witness :
    (∀ fuel, check_catchtype_and_class demoEnv fuel (hb_pop_frame thHandledOnTop)
      ⟨10, 20, 50, 3⟩ 5 15 = .nofuel) ∧
    ∃ j r th1, j ≤ thHandledOnTop.frames.length ∧
      find_exception_table demoEnv 1 thHandledOnTop 5 = .ok (r, th1) ∧
      th1.frames.length + j = thHandledOnTop.frames.length ∧
      (r = 0 ∨ r = 1) ∧
      (r = 0 → j = thHandledOnTop.frames.length ∧ th1 = hb_pop_frame^[j] thHandledOnTop) := by
  refine ⟨fun fuel => ?_, ?_⟩
  · rw [check_in_range demoEnv fuel (hb_pop_frame thHandledOnTop) ⟨10, 20, 50, 3⟩ 5 15
      (demoFrame 15 [⟨10, 20, 50, 3⟩]) ⟨4⟩ "java/lang/Throwable" "java/lang/ArithmeticException"
      (by decide) rfl rfl rfl rfl]
    rw [if_neg (by decide)]
    exact super_loop_no_progress demoEnv 5 "java/lang/Throwable" "java/lang/RuntimeException" 4
      rfl rfl (by decide) fuel
  · refine (find_exception_table_returns demoEnv 1 5 thHandledOnTop
      (demoFrame 15 [⟨10, 20, 50, 1⟩]) rfl ?_).1
    intro j f t hprev hf ht
    cases j with
    | zero =>
      have hf0 : some (demoFrame 15 [⟨10, 20, 50, 1⟩]) = some f := hf
      cases hf0
      have ht0 : some (⟨10, 20, 50, 1⟩ : excp_table_t) = some t := ht
      cases ht0
      exact ⟨1, rfl⟩
    | succ j =>
      have h0 := hprev 0 (demoFrame 15 [⟨10, 20, 50, 1⟩]) ⟨10, 20, 50, 1⟩ (Nat.succ_pos j) rfl rfl
      have h1 : check_catchtype_and_class demoEnv 1 (hb_pop_frame^[0] thHandledOnTop)
          ⟨10, 20, 50, 1⟩ 5 (demoFrame 15 [⟨10, 20, 50, 1⟩]).pc = .ok 1 := rfl
      rw [h1] at h0
      exact absurd h0 (by decide)

end Hawkbeans
